import Mathlib

/-!
Shallow embedding of the catalog auto-checker validation pipeline
(`src/app/api/auto-checker-catalog-number/route.ts`).

JavaScript cell values are modelled by `JsVal` (strings, finite numbers,
booleans, `null`, `NaN`, and the string arrays produced by constant-field
normalization).  JavaScript numbers are modelled as rationals; the modelled
string/number conversions cover the finite decimal forms that arise in this
pipeline (hexadecimal literals, `Infinity` and exponential display forms do
not occur in the validated spreadsheet data).  Character-level helpers mirror
the ASCII behaviour of `trim`, `toLowerCase`, `toUpperCase`, `\w` and the
case-insensitive regex flag.
-/

/-- The characters treated as whitespace by JavaScript `trim` (common subset). -/
def isWsChar (c : Char) : Bool :=
  c = ' ' || c = '\t' || c = '\n' || c = '\x0d' || c = '\x0b' || c = '\x0c' || c = '\xa0'

/-- JavaScript regex `\w`: ASCII letters, digits and underscore. -/
def isWordChar (c : Char) : Bool :=
  (65 ≤ c.toNat && c.toNat ≤ 90) || (97 ≤ c.toNat && c.toNat ≤ 122) ||
  (48 ≤ c.toNat && c.toNat ≤ 57) || c = '_'

/-- ASCII lower-casing of one character (JavaScript `toLowerCase`). -/
def lcChar (c : Char) : Char :=
  if 65 ≤ c.toNat && c.toNat ≤ 90 then Char.ofNat (c.toNat + 32) else c

/-- ASCII upper-casing of one character (JavaScript `toUpperCase`). -/
def ucChar (c : Char) : Char :=
  if 97 ≤ c.toNat && c.toNat ≤ 122 then Char.ofNat (c.toNat - 32) else c

/-- Drop whitespace from both ends of a character list. -/
def trimCh (l : List Char) : List Char :=
  ((l.dropWhile isWsChar).reverse.dropWhile isWsChar).reverse

/-- JavaScript `String.prototype.trim`. -/
def jsTrim (s : String) : String := ⟨trimCh s.data⟩

/-- JavaScript `String.prototype.toLowerCase` (ASCII). -/
def jsToLower (s : String) : String := ⟨s.data.map lcChar⟩

/-- JavaScript `String.prototype.toUpperCase` (ASCII). -/
def jsToUpper (s : String) : String := ⟨s.data.map ucChar⟩

/-- JavaScript `String.prototype.split(sep)` for a one-character separator. -/
def splitOnChar (sep : Char) : List Char → List (List Char)
  | [] => [[]]
  | c :: cs =>
    let r := splitOnChar sep cs
    if c = sep then [] :: r
    else match r with
      | h :: t => (c :: h) :: t
      | [] => [[c]]

/-- JavaScript `String.prototype.replace` with a one-character pattern:
    replaces only the first occurrence. -/
def replaceFirstChar (c d : Char) : List Char → List Char
  | [] => []
  | x :: xs => if x = c then d :: xs else x :: replaceFirstChar c d xs

/-- Numeric value of an ASCII digit. -/
def digitVal (c : Char) : Option Nat :=
  if 48 ≤ c.toNat && c.toNat ≤ 57 then some (c.toNat - 48) else none

/-- Greedily read decimal digits, returning accumulated value, digit count
    and the rest of the input. -/
def takeDigits : Nat → Nat → List Char → Nat × Nat × List Char
  | acc, n, [] => (acc, n, [])
  | acc, n, c :: cs =>
    match digitVal c with
    | some d => takeDigits (acc * 10 + d) (n + 1) cs
    | none => (acc, n, c :: cs)

/-- Optional leading sign; returns whether negative and the rest. -/
def parseSign : List Char → Bool × List Char
  | '+' :: cs => (false, cs)
  | '-' :: cs => (true, cs)
  | cs => (false, cs)

/-- Optional exponent part `e`/`E`[sign]digits; if no digit follows, nothing
    is consumed (as in `parseFloat("1e")` = 1). -/
def parseExpPart (l : List Char) : Int × List Char :=
  match l with
  | 'e' :: rest | 'E' :: rest =>
    let (neg, r2) := parseSign rest
    let (v, n, r3) := takeDigits 0 0 r2
    if n = 0 then (0, l) else ((if neg then -(v : Int) else (v : Int)), r3)
  | _ => (0, l)

/-- A finite JavaScript number, represented exactly as the scaled decimal
    `mant / 10 ^ exp` (every number this pipeline computes is a finite decimal:
    `parseFloat` results of decimal literals, zero, one, and counts).  Values
    are kept canonical (no trailing factor of ten in `mant` while `exp > 0`),
    so decidable structural equality coincides with numeric equality and
    `mant`'s sign is the number's sign. -/
structure Dec where
  mant : Int
  exp : Nat
deriving DecidableEq, Repr

/-- Canonicalize a scaled decimal. -/
def Dec.canon : Int → Nat → Dec
  | m, 0 => ⟨m, 0⟩
  | m, e + 1 => if m % 10 = 0 then Dec.canon (m / 10) e else ⟨m, e + 1⟩

/-- The decimal zero. -/
def Dec.zero : Dec := ⟨0, 0⟩

/-- The decimal one. -/
def Dec.one : Dec := ⟨1, 0⟩

/-- Longest numeric literal at the front of the input (JavaScript `parseFloat`
    behaviour on finite decimal forms): leading whitespace skipped, optional
    sign, digits with optional fraction, optional exponent.  Returns the value
    and the unconsumed rest, or `none` when no digit could be read (`NaN`). -/
def parseFloatCore (l : List Char) : Option (Dec × List Char) :=
  let l1 := l.dropWhile isWsChar
  let (neg, l2) := parseSign l1
  let (iv, ic, l3) := takeDigits 0 0 l2
  let (fv, fc, l4) :=
    match l3 with
    | '.' :: r => takeDigits 0 0 r
    | _ => (0, 0, l3)
  if ic = 0 && fc = 0 then none
  else
    let (ev, l5) := parseExpPart l4
    let m0 : Int := (iv * 10 ^ fc + fv : Nat)
    let m1 : Int := if neg then -m0 else m0
    let d := if 0 ≤ ev then Dec.canon (m1 * 10 ^ ev.toNat) fc
             else Dec.canon m1 (fc + (-ev).toNat)
    some (d, l5)

/-- JavaScript `parseFloat` (prefix parse, `none` = `NaN`). -/
def parseFloatJs (s : String) : Option Dec :=
  (parseFloatCore s.data).map Prod.fst

/-- JavaScript `Number(string)`: whole-string numeric conversion; the empty or
    all-whitespace string converts to `0`; `none` = `NaN`. -/
def numberOfString (s : String) : Option Dec :=
  let t := trimCh s.data
  if t = [] then some Dec.zero
  else
    match parseFloatCore t with
    | some (q, []) => some q
    | _ => none

/-- A JavaScript value as it occurs in this pipeline: spreadsheet cells are
    strings, numbers, booleans or `null`; validation may write `NaN`-free
    numbers, booleans, or arrays of canonical names into a product. -/
inductive JsVal where
  | str : String → JsVal
  | num : Dec → JsVal
  | bool : Bool → JsVal
  | null : JsVal
  | nan : JsVal
  | arr : List String → JsVal
deriving DecidableEq, Repr

/-- Left-pad a digit string with zeros to the given width. -/
def padZeros (s : String) (e : Nat) : String :=
  ⟨List.replicate (e - s.length) '0' ++ s.data⟩

/-- Display of a non-negative scaled decimal. -/
def posDecString (m : Nat) (e : Nat) : String :=
  if e = 0 then toString m
  else toString (m / 10 ^ e) ++ "." ++ padZeros (toString (m % 10 ^ e)) e

/-- Display of a number (JavaScript `String(number)` on finite
    decimal-representable values; canonical `Dec` has no trailing fraction
    zeros, matching JavaScript's shortest display). -/
def numToString (q : Dec) : String :=
  if q.mant < 0 then "-" ++ posDecString (-q.mant).toNat q.exp
  else posDecString q.mant.toNat q.exp

/-- JavaScript `String(value)`. -/
def jsToString : JsVal → String
  | .str s => s
  | .num q => numToString q
  | .bool b => if b then "true" else "false"
  | .null => "null"
  | .nan => "NaN"
  | .arr xs => String.intercalate "," xs

/-- JavaScript truthiness. -/
def truthy : JsVal → Bool
  | .str s => s ≠ ""
  | .num q => q.mant ≠ 0
  | .bool b => b
  | .null => false
  | .nan => false
  | .arr _ => true

/-- The test `value === null || value === undefined || String(value).trim() === ""`
    (`none` models an absent property, i.e. `undefined`). -/
def isEmptyJs : Option JsVal → Bool
  | none => true
  | some .null => true
  | some v => jsTrim (jsToString v) = ""

/-- The test `v === undefined || v === null || (typeof v === 'string' && v.trim() === '')`. -/
def isBlankField : Option JsVal → Bool
  | none => true
  | some .null => true
  | some (.str s) => jsTrim s = ""
  | some _ => false

/-- JavaScript `Number(value)` (`none` = `NaN`). -/
def jsNumber : JsVal → Option Dec
  | .str s => numberOfString s
  | .num q => some q
  | .bool b => some (if b then Dec.one else Dec.zero)
  | .null => some Dec.zero
  | .nan => none
  | .arr xs =>
    match xs with
    | [] => some Dec.zero
    | [x] => numberOfString x
    | _ => none

/-- `Number` applied to a possibly-absent value (`Number(undefined)` = `NaN`). -/
def jsNumberOpt : Option JsVal → Option Dec
  | none => none
  | some v => jsNumber v

/-- `Number(url.searchParams.get(...))`: a missing query parameter is `null`
    and `Number(null)` = `0`. -/
def jsNumberParam : Option String → Option Dec
  | none => some Dec.zero
  | some s => numberOfString s

/-- `String(x || '')`: the empty string when `x` is falsy or absent. -/
def jsStringFalsy : Option JsVal → String
  | none => ""
  | some v => if truthy v then jsToString v else ""

/-- A normalized product row: a flat JavaScript object, keys in insertion
    order, addressed by dotted-path header names. -/
abbrev JsObj := List (String × JsVal)

/-- Property read (`obj[key]`, `none` = `undefined`). -/
def getKey (p : JsObj) (k : String) : Option JsVal :=
  (p.find? (fun kv => kv.1 = k)).map (·.2)

/-- Property write (`obj[key] = v`): overwrites in place, appends when new. -/
def setKey : JsObj → String → JsVal → JsObj
  | [], k, v => [(k, v)]
  | (k', v') :: rest, k, v =>
    if k' = k then (k, v) :: rest else (k', v') :: setKey rest k v

/-- `getAllKeysWithDotNotation` on a flat product: its keys in order. -/
def getAllKeysWithDotNotation (p : JsObj) : List String := p.map Prod.fst

/-! ## Error model (`ProcessError`) -/

/-- The `type` field of a `ProcessError`. -/
inductive ErrType where
  | validation | duplication | missing_field | invalid_value | unrecognized_field
  | system_error | permission_denied | file_error
  | info | success | warning | summary_report
deriving DecidableEq, Repr

/-- The `severity` field of a `ProcessError`. -/
inductive Severity where
  | error | warning | info | success
deriving DecidableEq, Repr

/-- The `ProcessError` record, the unit of all reporting (including the extra
    count fields carried only by the summary message). -/
structure ProcessError where
  type : ErrType
  message : String
  severity : Severity
  field : Option String := none
  value : Option JsVal := none
  catalogNumber : Option String := none
  sheetName : Option String := none
  details : List String := []
  code : Option String := none
  totalProducts : Option Nat := none
  validProducts : Option Int := none
  errors : Option Nat := none
  duplications : Option Nat := none
  warnings : Option Nat := none
deriving DecidableEq, Repr

/-! ## Aggressive regex (`createAggressiveRegex`)

`createAggressiveRegex` escapes the label's regex metacharacters, then maps
every word character `c` of the escaped text to `c\W*` and re-escapes every
other character.  At the regex-AST level the produced pattern is a sequence of
items: each word character of the label becomes "that character (case
insensitively), then any run of non-word characters"; every other character of
the label (including each backslash inserted by the first escaping pass)
becomes a literal single-character match.  The module-level cache maps each
label to this pattern and never changes it, so matching is modelled directly
on the pattern. -/

/-- One item of the compiled aggressive pattern. -/
inductive PatItem where
  | wordStar : Char → PatItem
  | lit : Char → PatItem
deriving DecidableEq, Repr

/-- The metacharacters escaped by `input.replace(/[-\/\\^$*+?.()|[\]{}]/g, "\\$&")`. -/
def specialChars : List Char :=
  ['-', '/', '\\', '^', '$', '*', '+', '?', '.', '(', ')', '|', '[', ']', '{', '}']

/-- First escaping pass: prefix each metacharacter with a backslash. -/
def escapeRegexChars (l : List Char) : List Char :=
  l.flatMap (fun c => if c ∈ specialChars then ['\\', c] else [c])

/-- The compiled aggressive pattern for a label. -/
def createAggressiveRegex (input : String) : List PatItem :=
  (escapeRegexChars input.data).map
    (fun c => if isWordChar c then PatItem.wordStar c else PatItem.lit c)

/-- ASCII case folding used by the `i` regex flag. -/
def foldCaseNat (n : Nat) : Nat := if 65 ≤ n && n ≤ 90 then n + 32 else n

/-- Case-insensitive character comparison (regex `i` flag, ASCII). -/
def ciEq (c d : Char) : Bool := foldCaseNat c.toNat = foldCaseNat d.toNat

/-- All suffixes of `s` reachable from the front by consuming zero or more
    non-word characters (the choices of a `\W*`). -/
def wSplits : List Char → List (List Char)
  | [] => [[]]
  | c :: cs => (c :: cs) :: (if isWordChar c then [] else wSplits cs)

/-- Does the pattern match some prefix of the input?  Every recursive step
    consumes one pattern item, so the fuel only needs to cover the pattern
    length; the fuel-exhaustion branch is unreachable. -/
def matchItemsFuel : Nat → List PatItem → List Char → Bool
  | _, [], _ => true
  | _, _ :: _, [] => false
  | 0, _ :: _, _ :: _ => false
  | fuel + 1, PatItem.lit c :: rest, x :: xs => ciEq c x && matchItemsFuel fuel rest xs
  | fuel + 1, PatItem.wordStar c :: rest, x :: xs =>
    ciEq c x && (wSplits xs).any (fun ys => matchItemsFuel fuel rest ys)

/-- Does the pattern match some prefix of the input? -/
def matchItems (pat : List PatItem) (s : List Char) : Bool :=
  matchItemsFuel pat.length pat s

/-- `createAggressiveRegex(label).test(input)`: does the compiled pattern
    match anywhere in the input? -/
def aggressiveTest (label input : String) : Bool :=
  input.data.tails.any (fun suf => matchItems (createAggressiveRegex label) suf)

/-! ## Field validators -/

/-- `parseBoolean`: locale-tolerant boolean reading, applied only after
    `validateBooleanField` has accepted the value. -/
def parseBoolean : Option JsVal → Option Bool
  | some (.bool b) => some b
  | some (.str s) =>
    let n := jsToLower (jsTrim s)
    if n = "true" || n = "yes" || n = "vrai" then some true
    else if n = "false" || n = "no" || n = "faux" then some false
    else none
  | _ => none

/-- `validateBooleanField`: empty values give a `missing_field` error; any
    value whose trimmed lower-cased string form is neither `"true"` nor
    `"false"` gives an `invalid_value` error. -/
def validateBooleanField (value : Option JsVal) (fieldName : String)
    (productCatalogNumber : String) : Option ProcessError :=
  if isEmptyJs value then
    some { type := ErrType.missing_field
           message := "\"" ++ fieldName ++ "\" cannot be empty. It must be \"true\" or \"false\"."
           field := some fieldName
           catalogNumber := some productCatalogNumber
           severity := Severity.error
           code := some "EMPTY_BOOLEAN_FIELD" }
  else
    match value with
    | none => none
    | some v =>
      let booleanString := jsToLower (jsTrim (jsToString v))
      if booleanString ≠ "true" && booleanString ≠ "false" then
        some { type := ErrType.invalid_value
               message := "\"" ++ fieldName ++ "\" must be \"true\" or \"false\". Found: \"" ++ jsToString v ++ "\""
               field := some fieldName
               value := some v
               catalogNumber := some productCatalogNumber
               severity := Severity.error
               code := some "INVALID_BOOLEAN_VALUE" }
      else none

/-- `validatePriceAmount`: empty values give a `missing_field` error; after
    converting the first decimal comma to a point, an unparseable amount gives
    an `invalid_value` error, a negative amount an `invalid_value` error with
    its own code. -/
def validatePriceAmount (priceAmount : Option JsVal) (fieldName : String)
    (productCatalogNumber : String) : Option ProcessError :=
  if isEmptyJs priceAmount then
    some { type := ErrType.missing_field
           message := "\"" ++ fieldName ++ "\" cannot be empty. It must be a valid number."
           field := some fieldName
           catalogNumber := some productCatalogNumber
           severity := Severity.error
           code := some "EMPTY_PRICE_AMOUNT" }
  else
    match priceAmount with
    | none => none
    | some v =>
      let normalized : String := ⟨replaceFirstChar ',' '.' (jsToString v).data⟩
      match parseFloatJs normalized with
      | none =>
        some { type := ErrType.invalid_value
               message := "\"" ++ fieldName ++ "\" must be a valid number. Found: \"" ++ jsToString v ++ "\""
               field := some fieldName
               value := some v
               catalogNumber := some productCatalogNumber
               severity := Severity.error
               code := some "INVALID_PRICE_AMOUNT" }
      | some q =>
        if q.mant < 0 then
          some { type := ErrType.invalid_value
                 message := "\"" ++ fieldName ++ "\" cannot be negative. Found: \"" ++ jsToString v ++ "\""
                 field := some fieldName
                 value := some v
                 catalogNumber := some productCatalogNumber
                 severity := Severity.error
                 code := some "NEGATIVE_PRICE_AMOUNT" }
        else none

/-! ## Schema (`Field`) and additional-field validation -/

/-- An alternate-name property of an allowed value. -/
structure FieldProp where
  name : String
deriving DecidableEq, Repr

/-- One allowed value of a `constant` field (canonical name plus optional
    alternate-name properties; an absent `properties` array behaves like an
    empty one). -/
structure FieldValueItem where
  name : String
  properties : List FieldProp := []
deriving DecidableEq, Repr

/-- A dynamic field definition (`Field` in the source; renamed since Lean's
    library already declares `Field`); `type` is the literal `"constant"` or
    `"variable"` string union of the source. -/
structure FieldDef where
  name : String
  type : String
  value : List FieldValueItem
deriving DecidableEq, Repr

/-- Insert into the matched-items set (`Set.add`: insertion-ordered, deduplicating). -/
def addUnique (l : List String) (x : String) : List String :=
  if x ∈ l then l else l ++ [x]

/-- One token against the allowed values: the first allowed value whose
    properties (if any) or own name match wins; its canonical name is returned. -/
def tokenFirstMatch (allowedValues : List FieldValueItem) (inputValue : String) :
    Option String :=
  (allowedValues.find? (fun itemValue =>
    itemValue.properties.any (fun prop => aggressiveTest prop.name inputValue)
      || aggressiveTest itemValue.name inputValue)).map (·.name)

/-- The token loop of a `constant` field: accumulates the deduplicated matched
    canonical names and the sub-error messages for unmatched tokens, in input
    order. -/
def matchTokensGo (allowedValues : List FieldValueItem) (trimmedKey : String) :
    List String → List String → List String → List String × List String
  | matched, subErrors, [] => (matched, subErrors)
  | matched, subErrors, t :: ts =>
    match tokenFirstMatch allowedValues t with
    | some nm => matchTokensGo allowedValues trimmedKey (addUnique matched nm) subErrors ts
    | none =>
      matchTokensGo allowedValues trimmedKey matched
        (subErrors ++ ["Input value \"" ++ t ++ "\" does not match any allowed constant for \"" ++ trimmedKey ++ "\"."]) ts

/-- Matched canonical names and sub-errors of a `constant` field's token list. -/
def matchTokens (allowedValues : List FieldValueItem) (trimmedKey : String)
    (inputValues : List String) : List String × List String :=
  matchTokensGo allowedValues trimmedKey [] [] inputValues

/-- The comma-split, trimmed, non-empty tokens of a raw constant-field value. -/
def splitConstantTokens (s : String) : List String :=
  ((splitOnChar ',' s.data).map (fun l => trimCh l)).filterMap
    (fun l => if l = [] then none else some ⟨l⟩)

/-- The `catalogNumber` attached to additional-field errors
    (`finalProduct.catalog_number`). -/
def catalogNumberField (p : JsObj) : Option String :=
  (getKey p "catalog_number").map jsToString

/-- One key of the additional-field loop body; returns the updated product and
    the errors appended for this key. -/
def additionalFieldStep (additionalFieldNames : List String) (fields : List FieldDef)
    (acc : JsObj × List ProcessError) (key : String) : JsObj × List ProcessError :=
  let p := acc.1
  let es := acc.2
  let trimmedKey := jsTrim key
  if trimmedKey ∈ additionalFieldNames then
    match fields.find? (fun f => jsTrim f.name = trimmedKey) with
    | none => (p, es)
    | some foundField =>
      if foundField.type = "constant" then
        let rawValue := getKey p trimmedKey
        let trimmedRawValue := jsTrim (jsStringFalsy rawValue)
        if jsToLower trimmedRawValue = "n/a" then
          (setKey p trimmedKey (JsVal.arr []), es)
        else if trimmedRawValue = "" then
          (p, es ++ [{ type := ErrType.missing_field
                       message := "Constant field \"" ++ trimmedKey ++ "\" cannot be empty."
                       field := some trimmedKey
                       catalogNumber := catalogNumberField p
                       severity := Severity.error
                       code := some "EMPTY_CONSTANT_FIELD" }])
        else
          let inputValues := splitConstantTokens trimmedRawValue
          let ms := matchTokens foundField.value trimmedKey inputValues
          let matchedItems := ms.1
          let subErrors := ms.2
          let es' :=
            if subErrors ≠ [] then
              es ++ [{ type := ErrType.invalid_value
                       message := "Constant field \"" ++ trimmedKey ++ "\" contains unrecognized values."
                       field := some trimmedKey
                       value := rawValue
                       catalogNumber := catalogNumberField p
                       severity := Severity.error
                       code := some "UNRECOGNIZED_CONSTANT_VALUE"
                       details := subErrors }]
            else es
          let p' :=
            if matchedItems ≠ [] then setKey p trimmedKey (JsVal.arr matchedItems)
            else if inputValues ≠ [] && subErrors.length = inputValues.length then
              setKey p trimmedKey (JsVal.arr [])
            else p
          (p', es')
      else if foundField.type = "variable" then
        let variableValue := getKey p trimmedKey
        let trimmedVariableValue := jsTrim (jsStringFalsy variableValue)
        if jsToLower trimmedVariableValue = "n/a" then
          (setKey p trimmedKey (JsVal.str ""), es)
        else if trimmedVariableValue = "" then
          (p, es ++ [{ type := ErrType.missing_field
                       message := "Variable field \"" ++ trimmedKey ++ "\" cannot be empty."
                       field := some trimmedKey
                       catalogNumber := catalogNumberField p
                       severity := Severity.error
                       code := some "EMPTY_VARIABLE_FIELD" }])
        else (setKey p trimmedKey (JsVal.str trimmedVariableValue), es)
      else (p, es)
  else (p, es)

/-- `validateAdditionalFields`: iterates over the product's keys (snapshot
    taken at entry, as `Object.keys` does); the in-place mutations of the
    source are modelled by the returned object. -/
def validateAdditionalFields (finalProduct : JsObj) (additionalFieldNames : List String)
    (fields : List FieldDef) : JsObj × List ProcessError :=
  (finalProduct.map Prod.fst).foldl (additionalFieldStep additionalFieldNames fields)
    (finalProduct, [])

/-! ## Per-product validation (`processProductChunk` loop body) -/

/-- The fixed essential-field path list. -/
def EssentialFields : List String :=
  ["name", "catalog_number", "supplier_catalog_number", "supplier.id",
   "price.buy.currency", "price.buy.amount", "price.promotion_price.amount",
   "shipment.dry_ice", "size", "available", "display"]

/-- The fixed currency whitelist. -/
def validCurrencies : List String := ["EUR", "USD", "GBP", "PLN", "JPY"]

/-- The chunk size of the route. -/
def CHUNK_SIZE : Nat := 500

/-- The early catalog-number gate
    (`!v || typeof v !== 'string' || String(v).trim() === ''`): the catalog
    number when it is a string with non-blank trim, else `none`. -/
def catalogOf (p : JsObj) : Option String :=
  match getKey p "catalog_number" with
  | some (JsVal.str s) => if s = "" || jsTrim s = "" then none else some s
  | _ => none

/-- The single error emitted for a product whose catalog number is missing or
    invalid. -/
def missingCatalogError (sheetName : String) : ProcessError :=
  { type := ErrType.missing_field
    message := "Missing or invalid \"catalog_number\". This product cannot be fully processed."
    field := some "catalog_number"
    sheetName := some sheetName
    severity := Severity.error
    code := some "MISSING_OR_INVALID_CATALOG_NUMBER" }

/-- The duplicate check against the chunk-local and global catalog-number
    sets; returns the duplication errors (at most one) and both updated sets. -/
def dupCheck (cat : String) (sheetName : String) (chunkSet globalSet : List String) :
    List ProcessError × List String × List String :=
  if cat ∈ chunkSet then
    ([{ type := ErrType.duplication
        message := "Duplicate catalog number \"" ++ cat ++ "\" found within the current sheet/chunk."
        field := some "catalog_number"
        catalogNumber := some cat
        sheetName := some sheetName
        severity := Severity.error
        code := some "CHUNK_DUPLICATE_CATALOG_NUMBER" }], chunkSet, globalSet)
  else
    let chunkSet' := chunkSet ++ [cat]
    if cat ∈ globalSet then
      ([{ type := ErrType.duplication
          message := "Duplicate catalog number \"" ++ cat ++ "\" found across different parts of the file."
          field := some "catalog_number"
          catalogNumber := some cat
          sheetName := some sheetName
          severity := Severity.error
          code := some "GLOBAL_DUPLICATE_CATALOG_NUMBER" }], chunkSet', globalSet)
    else ([], chunkSet', globalSet ++ [cat])

/-- The unrecognized-field warnings: every key whose value is non-blank and
    whose trimmed name is neither an essential field nor an additional-field
    name. -/
def unrecognizedErrs (additionalFieldNames : List String) (sheetName cat : String)
    (p : JsObj) : List ProcessError :=
  (getAllKeysWithDotNotation p).filterMap (fun key =>
    if isBlankField (getKey p key) then none
    else if jsTrim key ∈ EssentialFields ++ additionalFieldNames then none
    else some { type := ErrType.unrecognized_field
                message := "Unrecognized field: \"" ++ key ++ "\" found in product."
                field := some key
                catalogNumber := some cat
                sheetName := some sheetName
                severity := Severity.warning
                code := some "UNRECOGNIZED_PRODUCT_FIELD" })

/-- One essential field: the optional promotion price is normalized to `null`
    and skipped when blank; any other blank essential field is an error. -/
def essentialFieldStep (sheetName cat : String) (acc : JsObj × List ProcessError)
    (field : String) : JsObj × List ProcessError :=
  let p := acc.1
  let es := acc.2
  if field = "price.promotion_price.amount" && isBlankField (getKey p field) then
    (setKey p field JsVal.null, es)
  else if isBlankField (getKey p field) then
    (p, es ++ [{ type := ErrType.missing_field
                 message := "Missing essential field: \"" ++ field ++ "\"."
                 field := some field
                 catalogNumber := some cat
                 sheetName := some sheetName
                 severity := Severity.error
                 code := some "MISSING_ESSENTIAL_FIELD" }])
  else (p, es)

/-- The essential-field presence pass. -/
def essentialCheck (sheetName cat : String) (p : JsObj) : JsObj × List ProcessError :=
  EssentialFields.foldl (essentialFieldStep sheetName cat) (p, [])

/-- The supplier-id check: `Number(product["supplier.id"])` must be a number
    equal to the run's supplier id. -/
def supplierCheck (supplierId : Dec) (sheetName cat : String) (p : JsObj) :
    List ProcessError :=
  let ok := match jsNumberOpt (getKey p "supplier.id") with
    | none => false
    | some q => q = supplierId
  if ok then []
  else
    [{ type := ErrType.invalid_value
       message := "Invalid supplier ID. Expected \"" ++ numToString supplierId ++ "\", found \""
                    ++ (match getKey p "supplier.id" with
                        | some v => jsToString v
                        | none => "undefined") ++ "\"."
       field := some "supplier.id"
       value := getKey p "supplier.id"
       catalogNumber := some cat
       sheetName := some sheetName
       severity := Severity.error
       code := some "INVALID_SUPPLIER_ID" }]

/-- The currency check: the upper-cased, trimmed buy currency must belong to
    the whitelist; valid values are normalized in place. -/
def currencyCheck (sheetName cat : String) (p : JsObj) : JsObj × List ProcessError :=
  let currency := jsTrim (jsToUpper (jsStringFalsy (getKey p "price.buy.currency")))
  if currency ∈ validCurrencies then
    (setKey p "price.buy.currency" (JsVal.str currency), [])
  else
    (p, [{ type := ErrType.invalid_value
           message := "Invalid currency. Expected one of [" ++ String.intercalate ", " validCurrencies
                        ++ "], found \""
                        ++ (match getKey p "price.buy.currency" with
                            | some v => jsToString v
                            | none => "undefined") ++ "\"."
           field := some "price.buy.currency"
           value := getKey p "price.buy.currency"
           catalogNumber := some cat
           sheetName := some sheetName
           severity := Severity.error
           code := some "INVALID_CURRENCY" }])

/-- The numeric value written back by price normalization
    (`parseFloat(String(v).replace(",", "."))`). -/
def normalizedAmount (v : Option JsVal) : JsVal :=
  match v with
  | none => JsVal.nan
  | some w =>
    match parseFloatJs ⟨replaceFirstChar ',' '.' (jsToString w).data⟩ with
    | some q => JsVal.num q
    | none => JsVal.nan

/-- The buy-amount check and normalization. -/
def buyAmountCheck (cat : String) (p : JsObj) : JsObj × List ProcessError :=
  match validatePriceAmount (getKey p "price.buy.amount") "price.buy.amount" cat with
  | some e => (p, [e])
  | none => (setKey p "price.buy.amount" (normalizedAmount (getKey p "price.buy.amount")), [])

/-- The promotion-amount check and normalization: skipped only when the value
    is exactly `null` (as left by the essential-field pass). -/
def promoAmountCheck (cat : String) (p : JsObj) : JsObj × List ProcessError :=
  if getKey p "price.promotion_price.amount" = some JsVal.null then (p, [])
  else
    match validatePriceAmount (getKey p "price.promotion_price.amount")
        "price.promotion_price.amount" cat with
    | some e => (p, [e])
    | none =>
      (setKey p "price.promotion_price.amount"
        (normalizedAmount (getKey p "price.promotion_price.amount")), [])

/-- The three boolean fields checked by the loop. -/
def booleanFieldsList : List String := ["shipment.dry_ice", "available", "display"]

/-- One boolean field: a failed validation appends its error; an accepted
    value is normalized through `parseBoolean`. -/
def booleanFieldStep (cat : String) (acc : JsObj × List ProcessError) (field : String) :
    JsObj × List ProcessError :=
  let p := acc.1
  let es := acc.2
  match validateBooleanField (getKey p field) field cat with
  | some e => (p, es ++ [e])
  | none =>
    (setKey p field (match parseBoolean (getKey p field) with
                     | some b => JsVal.bool b
                     | none => JsVal.null), es)

/-- The boolean-field pass. -/
def booleanChecks (cat : String) (p : JsObj) : JsObj × List ProcessError :=
  booleanFieldsList.foldl (booleanFieldStep cat) (p, [])

/-- Result of validating one product. -/
structure ProductResult where
  errors : List ProcessError
  valid : Option JsObj
  chunkSet : List String
  globalSet : List String
deriving Repr

/-- The `processProductChunk` loop body for one product: the early catalog
    gate, duplicate tracking, then all field checks in source order; a product
    with any error is excluded from the valid output, otherwise it is emitted
    with its `validated` flag. -/
def processProduct (supplierId : Dec) (sheetName : String)
    (additionalFieldNames : List String) (fields : List FieldDef)
    (chunkSet globalSet : List String) (p : JsObj) : ProductResult :=
  match catalogOf p with
  | none => ⟨[missingCatalogError sheetName], none, chunkSet, globalSet⟩
  | some cat =>
    let dup := dupCheck cat sheetName chunkSet globalSet
    let unrec := unrecognizedErrs additionalFieldNames sheetName cat p
    let ess := essentialCheck sheetName cat p
    let supp := supplierCheck supplierId sheetName cat ess.1
    let curr := currencyCheck sheetName cat ess.1
    let buy := buyAmountCheck cat curr.1
    let promo := promoAmountCheck cat buy.1
    let bools := booleanChecks cat promo.1
    let addl := validateAdditionalFields bools.1 additionalFieldNames fields
    let errs := dup.1 ++ unrec ++ ess.2 ++ supp ++ curr.2 ++ buy.2 ++ promo.2
                  ++ bools.2 ++ addl.2
    ⟨errs,
     (if errs = [] then some (setKey addl.1 "validated" (JsVal.bool true)) else none),
     dup.2.1, dup.2.2⟩

/-- Result of validating one chunk. -/
structure ChunkRes where
  errors : List ProcessError
  finalValidData : List JsObj
  chunkSet : List String
  globalSet : List String
deriving Repr

/-- The chunk loop, threading the chunk-local and global sets. -/
def processChunkGo (supplierId : Dec) (sheetName : String)
    (additionalFieldNames : List String) (fields : List FieldDef) :
    List String → List String → List JsObj → ChunkRes
  | chunkSet, globalSet, [] => ⟨[], [], chunkSet, globalSet⟩
  | chunkSet, globalSet, p :: ps =>
    let r := processProduct supplierId sheetName additionalFieldNames fields
        chunkSet globalSet p
    let rest := processChunkGo supplierId sheetName additionalFieldNames fields
        r.chunkSet r.globalSet ps
    ⟨r.errors ++ rest.errors,
     (match r.valid with
      | some q => q :: rest.finalValidData
      | none => rest.finalValidData),
     rest.chunkSet, rest.globalSet⟩

/-- `processProductChunk`: validates one chunk against a fresh chunk-local set
    and the run's global duplicate set (mutation of the global set is modelled
    by the returned set). -/
def processProductChunk (chunk : List JsObj) (supplierId : Dec) (sheetName : String)
    (additionalFieldNames : List String) (fields : List FieldDef)
    (globalSupplierCatalogNumbers : List String) : ChunkRes :=
  processChunkGo supplierId sheetName additionalFieldNames fields [] globalSupplierCatalogNumbers chunk

/-- Result of validating a whole run's chunk sequence. -/
structure RunRes where
  errors : List ProcessError
  finalValidData : List JsObj
  globalSet : List String
deriving Repr

/-- The route's chunk loop: each chunk starts with a fresh chunk-local set,
    the global set is threaded through all chunks. -/
def runChunksGo (supplierId : Dec) (sheetName : String)
    (additionalFieldNames : List String) (fields : List FieldDef) :
    List String → List (List JsObj) → RunRes
  | globalSet, [] => ⟨[], [], globalSet⟩
  | globalSet, c :: cs =>
    let r := processProductChunk c supplierId sheetName additionalFieldNames fields globalSet
    let rest := runChunksGo supplierId sheetName additionalFieldNames fields r.globalSet cs
    ⟨r.errors ++ rest.errors, r.finalValidData ++ rest.finalValidData, rest.globalSet⟩

/-! ## Spreadsheet reading and the run trace (`GET`)

The streaming workbook reader is modelled by the sheet/row/cell lists the
reader emits (`entries: "emit"`); each emitted row is the list of its present
cells, in column order, columns 1-based.  The SHA-256 content fingerprint of
`generateMetadataHash` is an external digest and is passed as a function
parameter; the Mongo idempotency write is modelled from the spec (below). -/

/-- One present cell of an emitted row. -/
structure CellIn where
  col : Nat
  val : JsVal
deriving DecidableEq, Repr

/-- One emitted worksheet. -/
structure SheetIn where
  name : String
  rows : List (List CellIn)
deriving DecidableEq, Repr

/-- Per-sheet metadata accumulated for fingerprinting. -/
structure SheetMeta where
  sheetName : String
  rowCount : Int
  headers : List String
deriving DecidableEq, Repr

/-- The header name of one header-row cell:
    `cell.value?.toString().trim() || "Column" + colNumber` (a `null` cell
    value short-circuits `?.` to the placeholder). -/
def headerName (col : Nat) (v : JsVal) : String :=
  match v with
  | JsVal.null => "Column" ++ toString col
  | _ =>
    let t := jsTrim (jsToString v)
    if t = "" then "Column" ++ toString col else t

/-- The sparse `headers` array built from the first row, as a column/name
    association list. -/
def headersOf (row : List CellIn) : List (Nat × String) :=
  row.map (fun c => (c.col, headerName c.col c.val))

/-- `headers[colNumber]`. -/
def lookupHeader (hs : List (Nat × String)) (col : Nat) : Option String :=
  (hs.find? (fun kv => kv.1 = col)).map (·.2)

/-- Cell normalization on data rows: strings are trimmed, other values kept
    (`typeof v === 'string' ? v.trim() : v ?? null`). -/
def normalizeCell : JsVal → JsVal
  | JsVal.str s => JsVal.str (jsTrim s)
  | v => v

/-- One data row flattened into a product object (cells without a header are
    dropped). -/
def rowToProduct (hs : List (Nat × String)) (row : List CellIn) : JsObj :=
  row.foldl (fun pd c =>
    match lookupHeader hs c.col with
    | some h => setKey pd h (normalizeCell c.val)
    | none => pd) []

/-- The periodic progress message (`processedRows % CHUNK_SIZE === 0`). -/
def progressMsg (n : Nat) : ProcessError :=
  { type := ErrType.info
    message := "Processed " ++ toString n ++ " products..."
    severity := Severity.info }

/-- The data-row loop of one sheet: skips empty rows and empty products,
    counts processed rows, and emits the periodic progress messages. -/
def dataLoop (hs : List (Nat × String)) : Nat → List (List CellIn) →
    List ProcessError × List JsObj × Nat
  | pr, [] => ([], [], pr)
  | pr, row :: rows =>
    if row = [] then dataLoop hs pr rows
    else
      let pd := rowToProduct hs row
      if pd = [] then dataLoop hs pr rows
      else
        let pr' := pr + 1
        let ms := if pr' % CHUNK_SIZE = 0 then [progressMsg pr'] else []
        let rest := dataLoop hs pr' rows
        (ms ++ rest.1, pd :: rest.2.1, rest.2.2)

/-- The warning sent and recorded for a sheet whose first emitted row has no
    cells (every assigned header entry is truthy, so
    `headers.filter(Boolean).length === 0` holds exactly then). -/
def noHeadersMsg (sheetName : String) : ProcessError :=
  { type := ErrType.file_error
    message := "Sheet \"" ++ sheetName ++ "\" has no detectable headers. Skipping this sheet."
    sheetName := some sheetName
    severity := Severity.warning
    code := some "NO_SHEET_HEADERS" }

/-- Result of reading one sheet. -/
structure SheetOut where
  msgs : List ProcessError
  errs : List ProcessError
  products : List JsObj
  meta : SheetMeta
  processed : Nat
deriving Repr

/-- Reading one sheet: headers come from the first emitted row; a sheet whose
    first emitted row has no cells sends one warning and keeps the empty
    header list (so every later row flattens to the empty product and is
    dropped); a sheet emitting no rows at all does nothing.  `rowCount` is the
    final row counter minus one. -/
def processSheet (pr0 : Nat) (s : SheetIn) : SheetOut :=
  match s.rows with
  | [] => ⟨[], [], [], ⟨s.name, -1, []⟩, pr0⟩
  | r1 :: rest =>
    if r1 = [] then
      let e := noHeadersMsg s.name
      ⟨[e], [e], [], ⟨s.name, (s.rows.length : Int) - 1, []⟩, pr0⟩
    else
      let hs := headersOf r1
      let dl := dataLoop hs pr0 rest
      ⟨dl.1, [], dl.2.1, ⟨s.name, (s.rows.length : Int) - 1, hs.map Prod.snd⟩, dl.2.2⟩

/-- The lifecycle message announcing one sheet. -/
def processingSheetMsg (sheetName : String) : ProcessError :=
  { type := ErrType.info
    message := "Processing sheet: \"" ++ sheetName ++ "\""
    sheetName := some sheetName
    severity := Severity.info }

/-- Result of reading all sheets. -/
structure SheetsRes where
  msgs : List ProcessError
  errs : List ProcessError
  products : List JsObj
  meta : List SheetMeta
  processed : Nat
deriving Repr

/-- The sheet loop. -/
def sheetsPhase : Nat → List SheetIn → SheetsRes
  | pr, [] => ⟨[], [], [], [], pr⟩
  | pr, s :: ss =>
    let so := processSheet pr s
    let rest := sheetsPhase so.processed ss
    ⟨processingSheetMsg s.name :: (so.msgs ++ rest.msgs), so.errs ++ rest.errs,
     so.products ++ rest.products, so.meta :: rest.meta, rest.processed⟩

/-- The chunking loop with explicit fuel: each step removes at least one
    element, so fuel covering the list length makes the exhaustion branch
    unreachable. -/
def splitIntoChunksFuel {α : Type} : Nat → List α → Nat → List (List α)
  | _, [], _ => []
  | _, a :: l, 0 => [a :: l]
  | 0, a :: l, _ + 1 => [a :: l]
  | fuel + 1, a :: l, chunkSize + 1 =>
    (a :: l).take (chunkSize + 1) ::
      splitIntoChunksFuel fuel ((a :: l).drop (chunkSize + 1)) (chunkSize + 1)

/-- `splitIntoChunks` (the source's loop never runs with chunk size 0). -/
def splitIntoChunks {α : Type} (array : List α) (chunkSize : Nat) : List (List α) :=
  splitIntoChunksFuel array.length array chunkSize

/-! ## Run environment and message constructors -/

/-- The environment of one `GET` run: the request parameters, the observable
    behaviour of the filesystem, database and workbook reader, and the current
    state of the persisted idempotency record (`blue_prints`, name
    `auto-checker`: `none` = record absent). -/
structure RunEnv where
  supplierIdParam : Option String
  filePathParam : Option String
  fileExists : Bool
  fieldsDoc : Option (List FieldDef)
  excelOpenFails : Bool
  excelOpenMessage : String
  sheets : List SheetIn
  blueprintFiles : Option (List String)
  blueprintSaveFails : Bool
  blueprintFailMessage : String
  cleanupFails : Bool
  cleanupFailMessage : String
deriving Repr

/-- `!supplierId || !filePath` where
    `supplierId = Number(url.searchParams.get('supplierId'))`. -/
def paramsMissing (env : RunEnv) : Bool :=
  (match jsNumberParam env.supplierIdParam with
   | none => true
   | some q => q.mant = 0)
  || (match env.filePathParam with
      | none => true
      | some s => s = "")

/-- The run's supplier id, once the parameter guard has passed. -/
def sidOf (env : RunEnv) : Dec :=
  match jsNumberParam env.supplierIdParam with
  | some q => q
  | none => Dec.zero

/-- The initial `connected` frame. -/
def connectedMsg : ProcessError :=
  { type := ErrType.info
    message := "Database connected, starting process..."
    severity := Severity.info }

/-- Fatal message for missing parameters. -/
def missingParamsMsg : ProcessError :=
  { type := ErrType.system_error
    message := "Missing required parameters (supplierId or filePath)."
    severity := Severity.error
    code := some "MISSING_PARAMS" }

/-- Fatal message for a missing temporary file. -/
def fileNotFoundMsg (filePath : String) : ProcessError :=
  { type := ErrType.file_error
    message := "File not found: " ++ filePath
    severity := Severity.error
    code := some "FILE_NOT_FOUND" }

/-- Fatal message for a missing field-definition document. -/
def metadataNotFoundMsg : ProcessError :=
  { type := ErrType.system_error
    message := "Additional fields document not found in database."
    severity := Severity.error
    code := some "METADATA_NOT_FOUND" }

/-- Lifecycle message before the workbook is opened. -/
def startingMsg : ProcessError :=
  { type := ErrType.info
    message := "Starting file processing..."
    severity := Severity.info }

/-- Fatal message when the workbook cannot be opened. -/
def excelOpenErrMsg (errMessage : String) : ProcessError :=
  { type := ErrType.file_error
    message := "Error opening Excel file: " ++ errMessage
    severity := Severity.error
    code := some "EXCEL_OPEN_ERROR" }

/-- Notice sent when the file contains no products. -/
def noProductsMsg : ProcessError :=
  { type := ErrType.info
    message := "No products found in the file after initial parsing."
    severity := Severity.info
    code := some "NO_PRODUCTS_FOUND" }

/-- Terminal success of the no-products path. -/
def noProductsDoneMsg : ProcessError :=
  { type := ErrType.success
    message := "Process completed with no products to validate."
    severity := Severity.success }

/-- Lifecycle message after the file has been read. -/
def finishedReadingMsg (total : Nat) : ProcessError :=
  { type := ErrType.info
    message := "Finished reading file. Total products found: " ++ toString total
                 ++ ". Starting validation..."
    severity := Severity.info }

/-- Lifecycle message carrying the fingerprint. -/
def hashInfoMsg (hash : String) : ProcessError :=
  { type := ErrType.info
    message := "Metadata hash generated: " ++ hash
    severity := Severity.info }

/-- The per-chunk lifecycle message. -/
def chunkInfoMsg (i n len : Nat) : ProcessError :=
  { type := ErrType.info
    message := "Processing validation chunk " ++ toString i ++ " of " ++ toString n
                 ++ " (" ++ toString len ++ " products)..."
    severity := Severity.info }

/-- `${e.code}` under string interpolation (`undefined` when absent). -/
def codeDisplay (e : ProcessError) : String :=
  match e.code with
  | some c => c
  | none => "undefined"

/-- The `(Field: ...)` fragment (empty when the field is falsy). -/
def fieldFragment (e : ProcessError) : String :=
  match e.field with
  | some f => if f = "" then "" else "(Field: " ++ f ++ ")"
  | none => ""

/-- The `(Product: ...)` fragment (empty when the catalog number is falsy). -/
def catalogFragment (e : ProcessError) : String :=
  match e.catalogNumber with
  | some c => if c = "" then "" else "(Product: " ++ c ++ ")"
  | none => ""

/-- One line of a validation-batch or warning-summary `details` array. -/
def formatDetail (e : ProcessError) : String :=
  "[" ++ codeDisplay e ++ "] " ++ e.message ++ " " ++ fieldFragment e ++ " "
    ++ catalogFragment e

/-- One batched validation-errors message (batches of 50). -/
def validationBatchMsg (batch : List ProcessError) : ProcessError :=
  { type := ErrType.validation
    message := "Validation errors found: " ++ toString batch.length ++ " issues in this batch."
    details := batch.map formatDetail
    severity := Severity.error
    code := some "VALIDATION_BATCH" }

/-- `${e.catalogNumber}` under string interpolation. -/
def catalogDisplay (e : ProcessError) : String :=
  match e.catalogNumber with
  | some c => c
  | none => "undefined"

/-- The single duplication-summary message. -/
def dupSummaryMsg (dups : List ProcessError) : ProcessError :=
  { type := ErrType.duplication
    message := "Duplication errors found: " ++ toString dups.length ++ " duplicates."
    details := dups.map (fun e =>
      "[" ++ codeDisplay e ++ "] " ++ e.message ++ " (Product: " ++ catalogDisplay e ++ ")")
    severity := Severity.error
    code := some "DUPLICATION_SUMMARY" }

/-- The distinct truthy `field` names of the warning records, in first-seen order. -/
def uniqueWarningFields (warns : List ProcessError) : List String :=
  warns.foldl (fun acc e =>
    match e.field with
    | some f => if f = "" then acc else addUnique acc f
    | none => acc) []

/-- The single warning-summary message. -/
def warnSummaryMsg (warns : List ProcessError) : ProcessError :=
  let uf := uniqueWarningFields warns
  { type := ErrType.warning
    message := "Warnings found: " ++ toString warns.length ++ " issues"
                 ++ (if uf.length > 0 then
                       " (e.g., unrecognized fields: " ++ String.intercalate ", " uf ++ ")"
                     else "") ++ "."
    details := warns.map formatDetail
    severity := Severity.warning
    code := some "WARNING_SUMMARY" }

/-- Success message of a fully clean run. -/
def allPassedMsg : ProcessError :=
  { type := ErrType.success
    message := "All products passed validation."
    severity := Severity.success }

/-- Success message after the idempotency record was written. -/
def blueprintSavedMsg : ProcessError :=
  { type := ErrType.success
    message := "Blue Print Saved 👌."
    severity := Severity.success }

/-- Error message when the idempotency write fails. -/
def blueprintFailedMsg (errMessage : String) : ProcessError :=
  { type := ErrType.system_error
    message := "Failed to save BluePrint: " ++ errMessage
    severity := Severity.error
    code := some "BLUEPRINT_SAVE_FAILED" }

/-- Notice when the run had errors and the record is not updated. -/
def notUpdatedMsg : ProcessError :=
  { type := ErrType.info
    message := "Validation completed with errors/warnings. BluePrint not updated."
    severity := Severity.info }

/-- The final summary record. -/
def mkSummary (total ve de we : Nat) : ProcessError :=
  { type := ErrType.summary_report
    message := "Processing Summary"
    totalProducts := some total
    validProducts := some ((total : Int) - (ve : Int) - (de : Int))
    errors := some ve
    duplications := some de
    warnings := some we
    severity := Severity.info
    code := some "FINAL_SUMMARY" }

/-- The very last success frame. -/
def processCompletedMsg : ProcessError :=
  { type := ErrType.success
    message := "Process Completed."
    severity := Severity.success }

/-- The cleanup info frame of the `finally` block. -/
def cleanupOkMsg : ProcessError :=
  { type := ErrType.info
    message := "Temporary file cleaned up successfully."
    severity := Severity.info }

/-- The cleanup failure frame of the `finally` block. -/
def cleanupFailedMsg (errMessage : String) : ProcessError :=
  { type := ErrType.system_error
    message := "Error cleaning up temporary file: " ++ errMessage
    severity := Severity.error
    code := some "TEMP_FILE_CLEANUP_FAILED" }

/-- The messages appended by the `finally` block (the temporary file exists in
    every branch that reached the existence check). -/
def cleanupMsgs (env : RunEnv) : List ProcessError :=
  if env.cleanupFails then [cleanupFailedMsg env.cleanupFailMessage] else [cleanupOkMsg]

/-! ## The run itself -/

/-- The sheet-reading phase of a run. -/
def sheetsOut (env : RunEnv) : SheetsRes := sheetsPhase 0 env.sheets

/-- All products read from the file, in input order. -/
def productsOf (env : RunEnv) : List JsObj := (sheetsOut env).products

/-- The accumulated sheet metadata. -/
def metaOf (env : RunEnv) : List SheetMeta := (sheetsOut env).meta

/-- The errors recorded during sheet reading (the no-header warnings). -/
def sheetErrsOf (env : RunEnv) : List ProcessError := (sheetsOut env).errs

/-- The run's chunk list. -/
def chunksOf (env : RunEnv) : List (List JsObj) :=
  splitIntoChunks (productsOf env) CHUNK_SIZE

/-- The chunk-validation phase of a run (the chunk loop of the route, with the
    hard-coded `"Main Sheet"` context and an initially empty global set). -/
def chunkRunOf (env : RunEnv) (fields : List FieldDef) : RunRes :=
  runChunksGo (sidOf env) "Main Sheet" (fields.map FieldDef.name) fields [] (chunksOf env)

/-- The per-chunk lifecycle messages. -/
def chunkMsgsGo (n : Nat) : Nat → List (List JsObj) → List ProcessError
  | _, [] => []
  | i, c :: cs => chunkInfoMsg (i + 1) n c.length :: chunkMsgsGo n (i + 1) cs

/-- All per-chunk lifecycle messages of a run. -/
def chunkMsgsOf (env : RunEnv) : List ProcessError :=
  chunkMsgsGo (chunksOf env).length 0 (chunksOf env)

/-- `allProcessingErrors` at the end of a run. -/
def allErrsOf (env : RunEnv) (fields : List FieldDef) : List ProcessError :=
  sheetErrsOf env ++ (chunkRunOf env fields).errors

/-- The validation-error filter of the summary phase. -/
def isValidationErr (e : ProcessError) : Bool :=
  decide ((e.type = ErrType.validation ∨ e.type = ErrType.missing_field
      ∨ e.type = ErrType.invalid_value ∨ e.type = ErrType.system_error
      ∨ e.type = ErrType.permission_denied ∨ e.type = ErrType.file_error)
    ∧ e.severity = Severity.error)

/-- The duplication-error filter of the summary phase. -/
def isDupErr (e : ProcessError) : Bool :=
  decide (e.type = ErrType.duplication ∧ e.severity = Severity.error)

/-- The warning filter of the summary phase. -/
def isWarnRec (e : ProcessError) : Bool := decide (e.severity = Severity.warning)

/-- The run's error-severity validation error records. -/
def veOf (env : RunEnv) (fields : List FieldDef) : List ProcessError :=
  (allErrsOf env fields).filter isValidationErr

/-- The run's duplication error records. -/
def deOf (env : RunEnv) (fields : List FieldDef) : List ProcessError :=
  (allErrsOf env fields).filter isDupErr

/-- The run's warning records. -/
def weOf (env : RunEnv) (fields : List FieldDef) : List ProcessError :=
  (allErrsOf env fields).filter isWarnRec

/-- The number of products that actually pass validation in a run (the
    accumulated `finalValidData`, which the route computes and discards). -/
def validCountOf (env : RunEnv) (fields : List FieldDef) : Nat :=
  (chunkRunOf env fields).finalValidData.length

/-- The batched validation-error messages (batches of 50). -/
def batchMsgsOf (env : RunEnv) (fields : List FieldDef) : List ProcessError :=
  (splitIntoChunks (veOf env fields) 50).map validationBatchMsg

/-- The duplication-summary messages (none or one). -/
def dupMsgsOf (env : RunEnv) (fields : List FieldDef) : List ProcessError :=
  if deOf env fields = [] then [] else [dupSummaryMsg (deOf env fields)]

/-- The warning-summary messages (none or one). -/
def warnMsgsOf (env : RunEnv) (fields : List FieldDef) : List ProcessError :=
  if weOf env fields = [] then [] else [warnSummaryMsg (weOf env fields)]

/-- The messages of the idempotency-update step. -/
def bpMsgsOf (env : RunEnv) (fields : List FieldDef) : List ProcessError :=
  if veOf env fields = [] ∧ deOf env fields = [] then
    if env.blueprintSaveFails then [blueprintFailedMsg env.blueprintFailMessage]
    else [allPassedMsg, blueprintSavedMsg]
  else [notUpdatedMsg]

/-- The ordered outbound message stream of one run.  The digest of
    `generateMetadataHash` (an SHA-256 computation) is the `hashFn`
    parameter. -/
def runMsgs (hashFn : List SheetMeta → List JsObj → String) (env : RunEnv) :
    List ProcessError :=
  if paramsMissing env then [connectedMsg, missingParamsMsg]
  else if env.fileExists = false then
    [connectedMsg,
     fileNotFoundMsg (match env.filePathParam with | some s => s | none => "")]
  else
    match env.fieldsDoc with
    | none => [connectedMsg, metadataNotFoundMsg] ++ cleanupMsgs env
    | some fields =>
      if env.excelOpenFails then
        [connectedMsg, startingMsg, excelOpenErrMsg env.excelOpenMessage] ++ cleanupMsgs env
      else if productsOf env = [] then
        [connectedMsg, startingMsg] ++ (sheetsOut env).msgs
          ++ [noProductsMsg, noProductsDoneMsg] ++ cleanupMsgs env
      else
        [connectedMsg, startingMsg] ++ (sheetsOut env).msgs
          ++ [finishedReadingMsg (productsOf env).length,
              hashInfoMsg (hashFn (metaOf env) (productsOf env))]
          ++ chunkMsgsOf env
          ++ batchMsgsOf env fields ++ dupMsgsOf env fields ++ warnMsgsOf env fields
          ++ bpMsgsOf env fields
          ++ [mkSummary (productsOf env).length (veOf env fields).length
                (deOf env fields).length (weOf env fields).length,
              processCompletedMsg]
          ++ cleanupMsgs env

/-- Modelled from the spec: the idempotency store write, a Mongo
    `findOneAndUpdate` on the fixed record name with `$addToSet: { files:
    hash }` and `upsert: true` (create-if-absent, append-if-present — a set
    union, never an overwrite); the Mongo client itself is not part of the
    repository source. -/
def addToSet (store : Option (List String)) (hash : String) : Option (List String) :=
  match store with
  | none => some [hash]
  | some files => some (if hash ∈ files then files else files ++ [hash])

/-- The idempotency record after one run: updated exactly on a clean run
    whose write succeeds, untouched otherwise. -/
def runBlueprintOut (hashFn : List SheetMeta → List JsObj → String) (env : RunEnv) :
    Option (List String) :=
  if paramsMissing env then env.blueprintFiles
  else if env.fileExists = false then env.blueprintFiles
  else
    match env.fieldsDoc with
    | none => env.blueprintFiles
    | some fields =>
      if env.excelOpenFails then env.blueprintFiles
      else if productsOf env = [] then env.blueprintFiles
      else if veOf env fields = [] ∧ deOf env fields = [] then
        if env.blueprintSaveFails then env.blueprintFiles
        else addToSet env.blueprintFiles (hashFn (metaOf env) (productsOf env))
      else env.blueprintFiles

/-- Result of one run: the outbound stream and the idempotency record state. -/
structure GetResult where
  msgs : List ProcessError
  blueprint : Option (List String)
deriving Repr

/-- The `GET` handler of the route. -/
def runGET (hashFn : List SheetMeta → List JsObj → String) (env : RunEnv) : GetResult :=
  ⟨runMsgs hashFn env, runBlueprintOut hashFn env⟩

/-! ## Terminal-shape predicates on the stream -/

/-- A temporary-file cleanup frame of the `finally` block. -/
def isCleanupMsg (m : ProcessError) : Bool :=
  decide (m.code = some "TEMP_FILE_CLEANUP_FAILED"
    ∨ (m.type = ErrType.info ∧ m.message = "Temporary file cleaned up successfully."))

/-- A fatal run-level error frame. -/
def isFatalMsg (m : ProcessError) : Bool :=
  decide (m.severity = Severity.error
    ∧ (m.type = ErrType.system_error ∨ m.type = ErrType.file_error
        ∨ m.type = ErrType.permission_denied))

/-- C9 as stated: the reversed stream starts with a fatal error, or with a
    `success` frame immediately preceded by a `summary_report`. -/
def strictEndsOK (t : List ProcessError) : Bool :=
  match t.reverse with
  | [] => false
  | [m] => isFatalMsg m
  | m :: m2 :: _ =>
    isFatalMsg m || (decide (m.type = ErrType.success) && decide (m2.type = ErrType.summary_report))

/-- Terminal check on the reversed, cleanup-stripped stream: a fatal error, or
    a `success` frame preceded either by the `summary_report` or by the
    no-products notice. -/
def goodTail : List ProcessError → Bool
  | [] => false
  | [m] => isFatalMsg m
  | m :: m2 :: _ =>
    isFatalMsg m
      || (decide (m.type = ErrType.success)
            && (decide (m2.type = ErrType.summary_report)
                  || decide (m2.code = some "NO_PRODUCTS_FOUND")))

/-- The amended terminal-shape property: after discarding at most one trailing
    cleanup frame, the stream ends in a fatal error, or in a success preceded
    by a summary report or by the no-products notice. -/
def endsOK (t : List ProcessError) : Bool :=
  match t.reverse with
  | [] => false
  | m :: rest => if isCleanupMsg m then goodTail rest else goodTail (m :: rest)

/-! ## Statement helpers and concrete run data -/

/-- The catalog numbers that pass the early gate, in row order. -/
def catsOf (ps : List JsObj) : List String := ps.filterMap catalogOf

/-- Does an error list contain a duplication record? -/
def hasDupErr (es : List ProcessError) : Bool :=
  es.any (fun e => decide (e.type = ErrType.duplication))

/-- The chunk-local and global duplicate-set state reached after processing
    the chunks `chunksBefore` and then the prefix `pre` of the current chunk,
    starting from the global set `gs0`. -/
def midState (supplierId : Dec) (sheetName : String) (additionalFieldNames : List String)
    (fields : List FieldDef) (gs0 : List String) (chunksBefore : List (List JsObj))
    (pre : List JsObj) : ChunkRes :=
  processChunkGo supplierId sheetName additionalFieldNames fields []
    (runChunksGo supplierId sheetName additionalFieldNames fields gs0 chunksBefore).globalSet
    pre

/-- The validation result of the product sitting right after `pre` in the
    chunk following `chunksBefore`. -/
def productAt (supplierId : Dec) (sheetName : String) (additionalFieldNames : List String)
    (fields : List FieldDef) (gs0 : List String) (chunksBefore : List (List JsObj))
    (pre : List JsObj) (p : JsObj) : ProductResult :=
  processProduct supplierId sheetName additionalFieldNames fields
    (midState supplierId sheetName additionalFieldNames fields gs0 chunksBefore pre).chunkSet
    (midState supplierId sheetName additionalFieldNames fields gs0 chunksBefore pre).globalSet
    p

/-- The same environment with a different stored idempotency record. -/
def withBP (env : RunEnv) (f : Option (List String)) : RunEnv :=
  { env with blueprintFiles := f }

/-- `FuzzyMatch label input`: the input realizes the label character by
    character, case-insensitively, with arbitrary non-word noise inserted
    after each character — the "arbitrary non-word noise interleaved between
    the label's word characters" of the specification. -/
inductive FuzzyMatch : List Char → List Char → Prop
  | nil : FuzzyMatch [] []
  | cons (c d : Char) (noise cs rest : List Char) :
      ciEq c d = true → (∀ x ∈ noise, isWordChar x = false) →
      FuzzyMatch cs rest → FuzzyMatch (c :: cs) (d :: (noise ++ rest))

/-- A constant digest standing in for the SHA-256 fingerprint in concrete runs. -/
def constHash : List SheetMeta → List JsObj → String := fun _ _ => "H"

/-- Header row of the concrete runs: the eleven essential paths. -/
def testHdrRow : List CellIn :=
  [⟨1, JsVal.str "name"⟩, ⟨2, JsVal.str "catalog_number"⟩,
   ⟨3, JsVal.str "supplier_catalog_number"⟩, ⟨4, JsVal.str "supplier.id"⟩,
   ⟨5, JsVal.str "price.buy.currency"⟩, ⟨6, JsVal.str "price.buy.amount"⟩,
   ⟨7, JsVal.str "price.promotion_price.amount"⟩, ⟨8, JsVal.str "shipment.dry_ice"⟩,
   ⟨9, JsVal.str "size"⟩, ⟨10, JsVal.str "available"⟩, ⟨11, JsVal.str "display"⟩]

/-- A fully valid data row (supplier 5, price `"12,50"`, currency `"eur"`). -/
def testGoodRow : List CellIn :=
  [⟨1, JsVal.str "N"⟩, ⟨2, JsVal.str "A1"⟩, ⟨3, JsVal.str "SC"⟩, ⟨4, JsVal.str "5"⟩,
   ⟨5, JsVal.str "eur"⟩, ⟨6, JsVal.str "12,50"⟩, ⟨8, JsVal.str "true"⟩,
   ⟨9, JsVal.str "10ml"⟩, ⟨10, JsVal.str "True"⟩, ⟨11, JsVal.str "false"⟩]

/-- An all-goes-well environment: one sheet, one valid row, empty schema,
    empty idempotency record. -/
def cleanEnv : RunEnv :=
  { supplierIdParam := some "5"
    filePathParam := some "/temp/f.xlsx"
    fileExists := true
    fieldsDoc := some []
    excelOpenFails := false
    excelOpenMessage := ""
    sheets := [⟨"S", [testHdrRow, testGoodRow]⟩]
    blueprintFiles := none
    blueprintSaveFails := false
    blueprintFailMessage := ""
    cleanupFails := false
    cleanupFailMessage := "" }

/-- The same run with a header-only sheet: zero products. -/
def noProductsEnv : RunEnv := { cleanEnv with sheets := [⟨"S", [testHdrRow]⟩] }

/-- A row carrying only a catalog number (many validation errors). -/
def testBadRow : List CellIn := [⟨2, JsVal.str "A1"⟩]

/-- A re-submission: the file's fingerprint (under `constHash`) is already in
    the stored idempotency record, and the file contains an invalid row. -/
def resubmitEnv : RunEnv :=
  { cleanEnv with sheets := [⟨"S", [testHdrRow, testBadRow]⟩], blueprintFiles := some ["H"] }

/-- A row with three error records: missing name, invalid currency, missing size. -/
def testTripleBadRow : List CellIn :=
  [⟨2, JsVal.str "A1"⟩, ⟨3, JsVal.str "SC"⟩, ⟨4, JsVal.str "5"⟩, ⟨5, JsVal.str "XYZ"⟩,
   ⟨6, JsVal.str "10"⟩, ⟨8, JsVal.str "true"⟩, ⟨10, JsVal.str "true"⟩, ⟨11, JsVal.str "true"⟩]

/-- One product accumulating three error records: the summary's
    `validProducts` becomes negative. -/
def negSummaryEnv : RunEnv := { cleanEnv with sheets := [⟨"S", [testHdrRow, testTripleBadRow]⟩] }

/-- Header row with a twelfth, unrecognized column. -/
def testHdrRowExtra : List CellIn := testHdrRow ++ [⟨12, JsVal.str "extra_col"⟩]

/-- A row with two error records: missing name and missing size. -/
def testDoubleBadRow : List CellIn :=
  [⟨2, JsVal.str "A1"⟩, ⟨3, JsVal.str "SC"⟩, ⟨4, JsVal.str "5"⟩, ⟨5, JsVal.str "EUR"⟩,
   ⟨6, JsVal.str "10"⟩, ⟨8, JsVal.str "true"⟩, ⟨10, JsVal.str "true"⟩, ⟨11, JsVal.str "true"⟩]

/-- A valid row except for a non-blank unrecognized column (warning only). -/
def testWarnOnlyRow : List CellIn :=
  [⟨1, JsVal.str "N"⟩, ⟨2, JsVal.str "B1"⟩, ⟨3, JsVal.str "SC"⟩, ⟨4, JsVal.str "5"⟩,
   ⟨5, JsVal.str "EUR"⟩, ⟨6, JsVal.str "10"⟩, ⟨8, JsVal.str "true"⟩,
   ⟨9, JsVal.str "10ml"⟩, ⟨10, JsVal.str "true"⟩, ⟨11, JsVal.str "true"⟩,
   ⟨12, JsVal.str "x"⟩]

/-- One product with two error records next to one warning-only product: the
    counted error records coincide with the number of excluded products. -/
def compSummaryEnv : RunEnv :=
  { cleanEnv with sheets := [⟨"S", [testHdrRowExtra, testDoubleBadRow, testWarnOnlyRow]⟩] }

/-- A sheet whose first emitted row has no cells although its second row holds
    data. -/
def emptyHeaderSheet : SheetIn := ⟨"S", [[], [⟨1, JsVal.str "hello"⟩]]⟩

/-- A constant-kind schema field with the single allowed value `Human`. -/
def speciesFieldDef : FieldDef :=
  { name := "species", type := "constant", value := [{ name := "Human", properties := [] }] }

/-- A product whose `species` cell lists the same allowed value three times in
    different casings. -/
def speciesProduct : JsObj :=
  [("catalog_number", JsVal.str "A1"), ("species", JsVal.str "Human, human, HUMAN")]

/-- The fully valid product object of `testGoodRow` as the chunk validator
    receives it. -/
def sampleGoodProduct : JsObj :=
  [("name", JsVal.str "N"), ("catalog_number", JsVal.str "A1"),
   ("supplier_catalog_number", JsVal.str "SC"), ("supplier.id", JsVal.str "5"),
   ("price.buy.currency", JsVal.str "eur"), ("price.buy.amount", JsVal.str "12,50"),
   ("shipment.dry_ice", JsVal.str "true"), ("size", JsVal.str "10ml"),
   ("available", JsVal.str "True"), ("display", JsVal.str "false")]

/-! ## Theorems -/

/-- C2: a product whose catalog number is missing or blank gets exactly the
    one `missing_field` error, every other check is skipped (the result is
    literally the single-error record), it is excluded from the valid output,
    and neither duplicate set is touched. -/
theorem C2_missing_catalog_short_circuit (supplierId : Dec) (sheetName : String)
    (additionalFieldNames : List String) (fields : List FieldDef)
    (chunkSet globalSet : List String) (p : JsObj) (h : catalogOf p = none) :
    processProduct supplierId sheetName additionalFieldNames fields chunkSet globalSet p
        = ⟨[missingCatalogError sheetName], none, chunkSet, globalSet⟩
      ∧ (missingCatalogError sheetName).type = ErrType.missing_field
      ∧ (missingCatalogError sheetName).severity = Severity.error := by
  refine ⟨?_, rfl, rfl⟩
  simp [processProduct, h]

theorem C2_missing_catalog_short_circuit_witness :
    catalogOf [("name", JsVal.str "x")] = none
      ∧ processProduct ⟨5, 0⟩ "S" [] [] [] [] [("name", JsVal.str "x")]
          = ⟨[missingCatalogError "S"], none, [], []⟩ :=
  ⟨rfl, (C2_missing_catalog_short_circuit ⟨5, 0⟩ "S" [] [] [] []
      [("name", JsVal.str "x")] rfl).1⟩

/-- C3 (counterexample): the claim says `"YES"` and `"vrai"` are accepted and
    normalized to `true`; the validator instead rejects both with an
    `invalid_value` error, so neither reaches normalization. -/
theorem C3_counterexample :
    (validateBooleanField (some (JsVal.str "YES")) "available" "A1").map
        (fun e => (e.type, e.severity, e.code))
      = some (ErrType.invalid_value, Severity.error, some "INVALID_BOOLEAN_VALUE")
    ∧ (validateBooleanField (some (JsVal.str "vrai")) "available" "A1").map
        (fun e => (e.type, e.severity, e.code))
      = some (ErrType.invalid_value, Severity.error, some "INVALID_BOOLEAN_VALUE")
    ∧ (validateBooleanField (some (JsVal.str "FAUX")) "available" "A1").map
        (fun e => (e.type, e.severity, e.code))
      = some (ErrType.invalid_value, Severity.error, some "INVALID_BOOLEAN_VALUE") := by
  refine ⟨?_, ?_, ?_⟩ <;> decide

/-- C3 (amended): a blank or missing boolean value yields a `missing_field`
    error; only strings whose trimmed lower-casing is `"true"` or `"false"`
    are accepted, and they normalize through `parseBoolean` to the
    corresponding boolean; every other non-blank string yields an
    `invalid_value` error (so `"YES"`, `"vrai"`, `"no"`, `"FAUX"` are all
    rejected, contrary to the original claim). -/
theorem C3_boolean_validation_amended :
    (∀ (v : Option JsVal) (f cat : String), isEmptyJs v = true →
        (validateBooleanField v f cat).map (fun e => (e.type, e.code))
          = some (ErrType.missing_field, some "EMPTY_BOOLEAN_FIELD"))
    ∧ (∀ (s f cat : String), jsToLower (jsTrim s) = "true" →
        validateBooleanField (some (JsVal.str s)) f cat = none
          ∧ parseBoolean (some (JsVal.str s)) = some true)
    ∧ (∀ (s f cat : String), jsToLower (jsTrim s) = "false" →
        validateBooleanField (some (JsVal.str s)) f cat = none
          ∧ parseBoolean (some (JsVal.str s)) = some false)
    ∧ (∀ (s f cat : String), jsTrim s ≠ "" →
        jsToLower (jsTrim s) ≠ "true" → jsToLower (jsTrim s) ≠ "false" →
        (validateBooleanField (some (JsVal.str s)) f cat).map (fun e => (e.type, e.code))
          = some (ErrType.invalid_value, some "INVALID_BOOLEAN_VALUE")) := by
  have hlow : jsToLower "" = "" := rfl
  have hne : ∀ s : String, jsToLower (jsTrim s) = "true" ∨ jsToLower (jsTrim s) = "false" →
      jsTrim s ≠ "" := by
    intro s hs he
    rw [he, hlow] at hs
    rcases hs with hs | hs <;> exact absurd hs (by decide)
  refine ⟨?_, ?_, ?_, ?_⟩
  · intro v f cat h
    simp [validateBooleanField, h]
  · intro s f cat h
    have hs := hne s (Or.inl h)
    constructor
    · simp [validateBooleanField, isEmptyJs, jsToString, hs, h]
    · simp [parseBoolean, h]
  · intro s f cat h
    have hs := hne s (Or.inr h)
    constructor
    · simp [validateBooleanField, isEmptyJs, jsToString, hs, h]
    · simp [parseBoolean, h]
  · intro s f cat hs h1 h2
    simp [validateBooleanField, isEmptyJs, jsToString, hs, h1, h2]

theorem C3_boolean_validation_amended_witness :
    (validateBooleanField none "f" "c").map (fun e => (e.type, e.code))
        = some (ErrType.missing_field, some "EMPTY_BOOLEAN_FIELD")
      ∧ (validateBooleanField (some (JsVal.str " True ")) "f" "c" = none
          ∧ parseBoolean (some (JsVal.str " True ")) = some true)
      ∧ (validateBooleanField (some (JsVal.str "False")) "f" "c" = none
          ∧ parseBoolean (some (JsVal.str "False")) = some false)
      ∧ (validateBooleanField (some (JsVal.str "maybe")) "f" "c").map
            (fun e => (e.type, e.code))
          = some (ErrType.invalid_value, some "INVALID_BOOLEAN_VALUE") :=
  ⟨C3_boolean_validation_amended.1 none "f" "c" rfl,
   C3_boolean_validation_amended.2.1 " True " "f" "c" (by decide),
   C3_boolean_validation_amended.2.2.1 "False" "f" "c" (by decide),
   C3_boolean_validation_amended.2.2.2 "maybe" "f" "c" (by decide) (by decide) (by decide)⟩


/-- The currency string actually inspected for a string-valued cell is the
    cell's own content. -/
theorem jsStringFalsy_str (s : String) : jsStringFalsy (some (JsVal.str s)) = s := by
  by_cases h : s = "" <;> simp [jsStringFalsy, truthy, jsToString, h]

/-- C6: an empty buy amount yields `missing_field`; a non-numeric amount
    (after converting the first decimal comma to a point) yields
    `invalid_value`; a negative amount yields `invalid_value`; a parseable
    non-negative amount passes; a string currency whose trimmed upper-casing
    is whitelisted passes and is normalized in place; and the row with amount
    `"12,50"` and currency `"eur"` validates with no errors at all, its amount
    normalized to the number `12.5` and its currency to `"EUR"`. -/
theorem C6_price_currency_normalization :
    (∀ (v : Option JsVal) (f cat : String), isEmptyJs v = true →
        (validatePriceAmount v f cat).map (fun e => (e.type, e.code))
          = some (ErrType.missing_field, some "EMPTY_PRICE_AMOUNT"))
    ∧ (∀ (w : JsVal) (f cat : String), isEmptyJs (some w) = false →
        parseFloatJs ⟨replaceFirstChar ',' '.' (jsToString w).data⟩ = none →
        (validatePriceAmount (some w) f cat).map (fun e => (e.type, e.code))
          = some (ErrType.invalid_value, some "INVALID_PRICE_AMOUNT"))
    ∧ (∀ (w : JsVal) (f cat : String) (q : Dec), isEmptyJs (some w) = false →
        parseFloatJs ⟨replaceFirstChar ',' '.' (jsToString w).data⟩ = some q → q.mant < 0 →
        (validatePriceAmount (some w) f cat).map (fun e => (e.type, e.code))
          = some (ErrType.invalid_value, some "NEGATIVE_PRICE_AMOUNT"))
    ∧ (∀ (w : JsVal) (f cat : String) (q : Dec), isEmptyJs (some w) = false →
        parseFloatJs ⟨replaceFirstChar ',' '.' (jsToString w).data⟩ = some q → 0 ≤ q.mant →
        validatePriceAmount (some w) f cat = none)
    ∧ (∀ (sheetName cat : String) (p : JsObj) (s : String),
        getKey p "price.buy.currency" = some (JsVal.str s) →
        jsTrim (jsToUpper s) ∈ validCurrencies →
        currencyCheck sheetName cat p
          = (setKey p "price.buy.currency" (JsVal.str (jsTrim (jsToUpper s))), []))
    ∧ (processProduct ⟨5, 0⟩ "S" [] [] [] [] sampleGoodProduct).errors = []
    ∧ ((processProduct ⟨5, 0⟩ "S" [] [] [] [] sampleGoodProduct).valid.map
          (fun v => (getKey v "price.buy.amount", getKey v "price.buy.currency")))
        = some (some (JsVal.num ⟨125, 1⟩), some (JsVal.str "EUR")) := by
  refine ⟨?_, ?_, ?_, ?_, ?_, by decide, by decide⟩
  · intro v f cat h
    simp [validatePriceAmount, h]
  · intro w f cat h hp
    simp [validatePriceAmount, h, hp]
  · intro w f cat q h hp hq
    simp [validatePriceAmount, h, hp, hq]
  · intro w f cat q h hp hq
    simp [validatePriceAmount, h, hp, not_lt.mpr hq]
  · intro sheetName cat p s hget hmem
    simp [currencyCheck, hget, jsStringFalsy_str, hmem]

theorem C6_price_currency_normalization_witness :
    (validatePriceAmount (some (JsVal.str " ")) "price.buy.amount" "A1").map
        (fun e => (e.type, e.code)) = some (ErrType.missing_field, some "EMPTY_PRICE_AMOUNT")
      ∧ (validatePriceAmount (some (JsVal.str "abc")) "price.buy.amount" "A1").map
          (fun e => (e.type, e.code)) = some (ErrType.invalid_value, some "INVALID_PRICE_AMOUNT")
      ∧ (validatePriceAmount (some (JsVal.str "-5")) "price.buy.amount" "A1").map
          (fun e => (e.type, e.code)) = some (ErrType.invalid_value, some "NEGATIVE_PRICE_AMOUNT")
      ∧ validatePriceAmount (some (JsVal.str "12,50")) "price.buy.amount" "A1" = none
      ∧ currencyCheck "S" "A1" sampleGoodProduct
          = (setKey sampleGoodProduct "price.buy.currency" (JsVal.str "EUR"), []) :=
  ⟨C6_price_currency_normalization.1 (some (JsVal.str " ")) "price.buy.amount" "A1" (by decide),
   C6_price_currency_normalization.2.1 (JsVal.str "abc") "price.buy.amount" "A1"
     (by decide) (by decide),
   C6_price_currency_normalization.2.2.1 (JsVal.str "-5") "price.buy.amount" "A1" ⟨-5, 0⟩
     (by decide) (by decide) (by decide),
   C6_price_currency_normalization.2.2.2.1 (JsVal.str "12,50") "price.buy.amount" "A1" ⟨125, 1⟩
     (by decide) (by decide) (by decide),
   C6_price_currency_normalization.2.2.2.2.1 "S" "A1" sampleGoodProduct "eur" rfl (by decide)⟩

/-- Membership in the matched-items set after one insertion. -/
theorem mem_addUnique (l : List String) (x y : String) :
    y ∈ addUnique l x ↔ y ∈ l ∨ y = x := by
  by_cases h : x ∈ l
  · simp only [addUnique, if_pos h]
    constructor
    · exact Or.inl
    · rintro (hy | rfl)
      · exact hy
      · exact h
  · simp [addUnique, if_neg h]

/-- Re-inserting an element already recorded changes nothing. -/
theorem addUnique_idem (l : List String) (x : String) :
    addUnique (addUnique l x) x = addUnique l x := by
  have hx : x ∈ addUnique l x := (mem_addUnique l x x).mpr (Or.inr rfl)
  rw [show addUnique (addUnique l x) x
        = if x ∈ addUnique l x then addUnique l x else addUnique l x ++ [x] from rfl,
    if_pos hx]

/-- When every token resolves to the same canonical name, the token loop
    produces exactly that one matched entry and no sub-errors. -/
theorem matchTokensGo_all_same (avs : List FieldValueItem) (tk nm : String) :
    ∀ (tokens : List String) (matched subErrors : List String),
      (∀ t ∈ tokens, tokenFirstMatch avs t = some nm) →
      matchTokensGo avs tk matched subErrors tokens
        = (if tokens = [] then matched else addUnique matched nm, subErrors) := by
  intro tokens
  induction tokens with
  | nil => intro matched subErrors _; simp [matchTokensGo]
  | cons t ts ih =>
    intro matched subErrors h
    have ht : tokenFirstMatch avs t = some nm := h t (List.mem_cons_self t ts)
    have hts : ∀ u ∈ ts, tokenFirstMatch avs u = some nm :=
      fun u hu => h u (List.mem_cons_of_mem t hu)
    simp only [matchTokensGo, ht]
    rw [ih (addUnique matched nm) subErrors hts]
    rcases ts with _ | ⟨u, us⟩
    · simp
    · simp [addUnique_idem]

/-- The matched entries of the token loop are exactly the canonical names some
    token resolves to (plus the accumulator). -/
theorem mem_matchTokensGo (avs : List FieldValueItem) (tk : String) :
    ∀ (tokens matched subErrors : List String) (x : String),
      x ∈ (matchTokensGo avs tk matched subErrors tokens).1
        ↔ x ∈ matched ∨ ∃ t ∈ tokens, tokenFirstMatch avs t = some x := by
  intro tokens
  induction tokens with
  | nil => intro matched subErrors x; simp [matchTokensGo]
  | cons t ts ih =>
    intro matched subErrors x
    cases hm : tokenFirstMatch avs t with
    | none =>
      simp only [matchTokensGo, hm]
      rw [ih]
      constructor
      · rintro (h | ⟨u, hu, hx⟩)
        · exact Or.inl h
        · exact Or.inr ⟨u, List.mem_cons_of_mem t hu, hx⟩
      · rintro (h | ⟨u, hu, hx⟩)
        · exact Or.inl h
        · rcases List.mem_cons.mp hu with rfl | hu'
          · rw [hm] at hx; cases hx
          · exact Or.inr ⟨u, hu', hx⟩
    | some nm =>
      simp only [matchTokensGo, hm]
      rw [ih, mem_addUnique]
      constructor
      · rintro ((h | rfl) | ⟨u, hu, hx⟩)
        · exact Or.inl h
        · exact Or.inr ⟨t, List.mem_cons_self t ts, hm⟩
        · exact Or.inr ⟨u, List.mem_cons_of_mem t hu, hx⟩
      · rintro (h | ⟨u, hu, hx⟩)
        · exact Or.inl (Or.inl h)
        · rcases List.mem_cons.mp hu with rfl | hu'
          · rw [hm] at hx
            exact Or.inl (Or.inr (Option.some_injective _ hx).symm)
          · exact Or.inr ⟨u, hu', hx⟩

/-- C7: when a constant field's tokens all resolve to the same allowed value,
    the field's final matched set is exactly that one canonical entry with no
    sub-errors; the matched set, viewed as a set, is invariant under
    permutation of the input tokens; and the concrete input
    `"Human, human, HUMAN"` against the allowed value `Human` normalizes the
    field to the single-entry array `["Human"]` with no errors. -/
theorem C7_constant_matching :
    (∀ (avs : List FieldValueItem) (tk : String) (tokens : List String) (nm : String),
        tokens ≠ [] → (∀ t ∈ tokens, tokenFirstMatch avs t = some nm) →
        matchTokens avs tk tokens = ([nm], []))
    ∧ (∀ (avs : List FieldValueItem) (tk : String) (l l' : List String), l.Perm l' →
        (matchTokens avs tk l).1.toFinset = (matchTokens avs tk l').1.toFinset)
    ∧ validateAdditionalFields speciesProduct ["species"] [speciesFieldDef]
        = (setKey speciesProduct "species" (JsVal.arr ["Human"]), []) := by
  refine ⟨?_, ?_, by decide⟩
  · intro avs tk tokens nm hne h
    rw [matchTokens, matchTokensGo_all_same avs tk nm tokens [] [] h, if_neg hne]
    rfl
  · intro avs tk l l' hperm
    ext x
    simp only [List.mem_toFinset, matchTokens, mem_matchTokensGo, List.not_mem_nil,
      false_or]
    constructor
    · rintro ⟨t, ht, hx⟩
      exact ⟨t, hperm.mem_iff.mp ht, hx⟩
    · rintro ⟨t, ht, hx⟩
      exact ⟨t, hperm.mem_iff.mpr ht, hx⟩

theorem C7_constant_matching_witness :
    matchTokens [{ name := "Human", properties := [] }] "species"
        ["Human", "human", "HUMAN"] = (["Human"], [])
      ∧ (matchTokens [{ name := "Human", properties := [] }] "species"
            ["HUMAN", "Human", "human"]).1.toFinset
          = (matchTokens [{ name := "Human", properties := [] }] "species"
              ["Human", "human", "HUMAN"]).1.toFinset :=
  ⟨C7_constant_matching.1 [{ name := "Human", properties := [] }] "species"
      ["Human", "human", "HUMAN"] "Human" (by decide) (by decide),
   C7_constant_matching.2.1 [{ name := "Human", properties := [] }] "species"
      ["HUMAN", "Human", "human"] ["Human", "human", "HUMAN"]
      (by decide)⟩

/-- C5 (counterexample): the claim's own example pairs do not match — the
    label's space must occur verbatim in the input, so neither the hyphenated
    nor the underscored variant is matched by the compiled pattern. -/
theorem C5_counterexample :
    aggressiveTest "alpha lipoic acid" "Alpha-Lipoic Acid" = false
      ∧ aggressiveTest "alpha lipoic acid" "alpha_lipoic_acid" = false := by
  constructor <;> decide

/-- Unfolding equation of the matcher on a word-character item. -/
theorem matchItems_wordStar_cons (c : Char) (rest : List PatItem) (x : Char)
    (xs : List Char) :
    matchItems (PatItem.wordStar c :: rest) (x :: xs)
      = (ciEq c x && (wSplits xs).any (fun ys => matchItems rest ys)) := rfl

/-- A word character is never a regex metacharacter. -/
theorem word_not_special (c : Char) (h : isWordChar c = true) : c ∉ specialChars := by
  intro hmem
  fin_cases hmem <;> exact absurd h (by decide)

/-- Escaping is the identity on all-word-character labels. -/
theorem escapeRegexChars_of_word (l : List Char) (h : ∀ c ∈ l, isWordChar c = true) :
    escapeRegexChars l = l := by
  induction l with
  | nil => rfl
  | cons c cs ih =>
    have hc : c ∉ specialChars := word_not_special c (h c (List.mem_cons_self c cs))
    show (if c ∈ specialChars then ['\\', c] else [c]) ++ escapeRegexChars cs = c :: cs
    rw [if_neg hc, ih (fun x hx => h x (List.mem_cons_of_mem c hx))]
    rfl

/-- On an all-word-character label the compiled pattern is one `wordStar` item
    per character. -/
theorem createAggressiveRegex_of_word (l : List Char) (h : ∀ c ∈ l, isWordChar c = true) :
    createAggressiveRegex ⟨l⟩ = l.map PatItem.wordStar := by
  show (escapeRegexChars l).map _ = _
  rw [escapeRegexChars_of_word l h]
  induction l with
  | nil => rfl
  | cons c cs ih =>
    simp only [List.map_cons, if_pos (h c (List.mem_cons_self c cs))]
    rw [ih (fun x hx => h x (List.mem_cons_of_mem c hx))]

/-- A `\W*` can consume any all-non-word prefix. -/
theorem mem_wSplits_of_noise (noise s : List Char)
    (h : ∀ x ∈ noise, isWordChar x = false) : s ∈ wSplits (noise ++ s) := by
  induction noise with
  | nil =>
    cases s with
    | nil => simp [wSplits]
    | cons c cs => simp [wSplits]
  | cons x n ih =>
    have hx : isWordChar x = false := h x (List.mem_cons_self x n)
    simp only [List.cons_append, wSplits, hx, Bool.false_eq_true, if_false]
    exact List.mem_cons_of_mem _ (ih (fun y hy => h y (List.mem_cons_of_mem x hy)))

/-- A noise-interleaved realization of an all-word-character label is matched
    by its compiled pattern, whatever follows. -/
theorem matchItems_of_fuzzy (label body : List Char) (hfm : FuzzyMatch label body) :
    ∀ post, matchItems (label.map PatItem.wordStar) (body ++ post) = true := by
  induction hfm with
  | nil => intro post; rfl
  | cons c d noise cs rest hci hnoise hfm ih =>
    intro post
    have hassoc : (noise ++ rest) ++ post = noise ++ (rest ++ post) := by
      rw [List.append_assoc]
    simp only [List.map_cons, List.cons_append, hassoc, matchItems_wordStar_cons, hci,
      Bool.true_and]
    exact List.any_eq_true.mpr
      ⟨rest ++ post, mem_wSplits_of_noise noise (rest ++ post) hnoise, ih post⟩

/-- C5 (amended): the compiled matcher is case-insensitive and tolerates
    arbitrary non-word noise after each word character of the label — for an
    all-word-character label, any noise-interleaved case-variant occurrence
    anywhere in the input matches — but the label's own non-word characters
    (such as its spaces) are matched verbatim, so the original claim's example
    pairs fail (see the counterexample) while noise after word characters and
    case changes are accepted. -/
theorem C5_aggressive_regex_amended :
    (∀ (label body pre post : List Char),
        (∀ c ∈ label, isWordChar c = true) → FuzzyMatch label body →
        aggressiveTest ⟨label⟩ ⟨pre ++ body ++ post⟩ = true)
    ∧ aggressiveTest "alpha lipoic acid" "ALPHA  LIPOIC ACID" = true
    ∧ aggressiveTest "human" "Hu-man" = true
    ∧ aggressiveTest "Human" "hUmAn" = true := by
  refine ⟨?_, by decide, by decide, by decide⟩
  intro label body pre post hword hfm
  show (pre ++ body ++ post).tails.any
      (fun suf => matchItems (createAggressiveRegex ⟨label⟩) suf) = true
  rw [createAggressiveRegex_of_word label hword]
  refine List.any_eq_true.mpr ⟨body ++ post, ?_, matchItems_of_fuzzy label body hfm post⟩
  exact (List.mem_tails _ _).mpr ⟨pre, (List.append_assoc pre body post).symm⟩

theorem C5_aggressive_regex_amended_witness :
    (∀ c ∈ ['h', 'u', 'm', 'a', 'n'], isWordChar c = true)
      ∧ aggressiveTest ⟨['h', 'u', 'm', 'a', 'n']⟩
          ⟨[] ++ ['H', 'u', '-', 'm', 'a', 'n'] ++ []⟩ = true :=
  ⟨by decide,
   C5_aggressive_regex_amended.1 ['h', 'u', 'm', 'a', 'n'] ['H', 'u', '-', 'm', 'a', 'n']
     [] [] (by decide)
     (FuzzyMatch.cons 'h' 'H' [] ['u', 'm', 'a', 'n'] ['u', '-', 'm', 'a', 'n']
       (by decide) (by decide)
       (FuzzyMatch.cons 'u' 'u' ['-'] ['m', 'a', 'n'] ['m', 'a', 'n']
         (by decide) (by decide)
         (FuzzyMatch.cons 'm' 'm' [] ['a', 'n'] ['a', 'n'] (by decide) (by decide)
           (FuzzyMatch.cons 'a' 'a' [] ['n'] ['n'] (by decide) (by decide)
             (FuzzyMatch.cons 'n' 'n' [] [] [] (by decide) (by decide)
               FuzzyMatch.nil)))))⟩

/-- Both duplicate-set updates of the duplicate check. -/
theorem dupCheck_sets (cat sheetName : String) (cs gs : List String) :
    (dupCheck cat sheetName cs gs).2.1 = (if cat ∈ cs then cs else cs ++ [cat])
      ∧ (dupCheck cat sheetName cs gs).2.2
        = (if cat ∈ cs then gs else if cat ∈ gs then gs else gs ++ [cat]) := by
  by_cases h1 : cat ∈ cs
  · simp [dupCheck, h1]
  · by_cases h2 : cat ∈ gs <;> simp [dupCheck, h1, h2]

/-- The duplicate check flags exactly the already-seen catalog numbers. -/
theorem dupCheck_hasDup (cat sheetName : String) (cs gs : List String) :
    hasDupErr (dupCheck cat sheetName cs gs).1 = (decide (cat ∈ cs) || decide (cat ∈ gs)) := by
  by_cases h1 : cat ∈ cs
  · simp [dupCheck, hasDupErr, h1]
  · by_cases h2 : cat ∈ gs <;> simp [dupCheck, hasDupErr, h1, h2]

/-- Unrecognized-field records are warnings of their own type. -/
theorem unrecognizedErrs_types (an : List String) (sheetName cat : String) (p : JsObj) :
    ∀ e ∈ unrecognizedErrs an sheetName cat p, e.type = ErrType.unrecognized_field := by
  intro e he
  rcases List.mem_filterMap.mp he with ⟨key, -, hcond⟩
  split_ifs at hcond
  all_goals try cases hcond
  all_goals rfl

/-- Essential-field records are `missing_field` errors. -/
theorem essentialFold_types (sheetName cat : String) :
    ∀ (fl : List String) (st : JsObj × List ProcessError),
      (∀ e ∈ st.2, e.type = ErrType.missing_field) →
      ∀ e ∈ (fl.foldl (essentialFieldStep sheetName cat) st).2,
        e.type = ErrType.missing_field := by
  intro fl
  induction fl with
  | nil => intro st h; exact h
  | cons f fs ih =>
    intro st h
    refine ih _ ?_
    rcases st with ⟨p, es⟩
    intro e he
    simp only [essentialFieldStep] at he
    split_ifs at he
    · exact h e he
    · rcases List.mem_append.mp he with h1 | h2
      · exact h e h1
      · rcases List.mem_singleton.mp h2 with rfl; rfl
    · exact h e he

/-- Supplier-id records are `invalid_value` errors. -/
theorem supplierCheck_types (sid : Dec) (sheetName cat : String) (p : JsObj) :
    ∀ e ∈ supplierCheck sid sheetName cat p, e.type = ErrType.invalid_value := by
  intro e he
  simp only [supplierCheck] at he
  split_ifs at he
  all_goals simp only [List.mem_singleton, List.not_mem_nil] at he
  all_goals (subst he; rfl)

/-- Currency records are `invalid_value` errors. -/
theorem currencyCheck_types (sheetName cat : String) (p : JsObj) :
    ∀ e ∈ (currencyCheck sheetName cat p).2, e.type = ErrType.invalid_value := by
  intro e he
  simp only [currencyCheck] at he
  split_ifs at he
  all_goals simp only [List.mem_singleton, List.not_mem_nil] at he
  all_goals (subst he; rfl)

/-- Price-amount validation only emits `missing_field` or `invalid_value`. -/
theorem validatePriceAmount_types (v : Option JsVal) (f cat : String) :
    ∀ e, validatePriceAmount v f cat = some e →
      e.type = ErrType.missing_field ∨ e.type = ErrType.invalid_value := by
  intro e h
  unfold validatePriceAmount at h
  split_ifs at h with h1
  · injection h with h'; rw [← h']; exact Or.inl rfl
  · rcases v with _ | w
    · cases h
    · dsimp only at h
      rcases hp : parseFloatJs ⟨replaceFirstChar ',' '.' (jsToString w).data⟩ with _ | q
      · rw [hp] at h
        injection h with h'; rw [← h']; exact Or.inr rfl
      · rw [hp] at h
        dsimp only at h
        split_ifs at h
        all_goals try cases h
        all_goals exact Or.inr rfl

/-- Boolean-field validation only emits `missing_field` or `invalid_value`. -/
theorem validateBooleanField_types (v : Option JsVal) (f cat : String) :
    ∀ e, validateBooleanField v f cat = some e →
      e.type = ErrType.missing_field ∨ e.type = ErrType.invalid_value := by
  intro e h
  unfold validateBooleanField at h
  split_ifs at h with h1
  · injection h with h'; rw [← h']; exact Or.inl rfl
  · rcases v with _ | w
    · cases h
    · dsimp only at h
      split_ifs at h
      all_goals try cases h
      all_goals exact Or.inr rfl

/-- Buy-amount records are `missing_field` or `invalid_value`. -/
theorem buyAmountCheck_types (cat : String) (p : JsObj) :
    ∀ e ∈ (buyAmountCheck cat p).2,
      e.type = ErrType.missing_field ∨ e.type = ErrType.invalid_value := by
  intro e he
  unfold buyAmountCheck at he
  rcases hv : validatePriceAmount (getKey p "price.buy.amount") "price.buy.amount" cat
    with _ | e'
  · rw [hv] at he; cases he
  · rw [hv] at he
    rcases List.mem_singleton.mp he with rfl
    exact validatePriceAmount_types _ _ _ _ hv

/-- Promotion-amount records are `missing_field` or `invalid_value`. -/
theorem promoAmountCheck_types (cat : String) (p : JsObj) :
    ∀ e ∈ (promoAmountCheck cat p).2,
      e.type = ErrType.missing_field ∨ e.type = ErrType.invalid_value := by
  intro e he
  unfold promoAmountCheck at he
  split_ifs at he
  · cases he
  · rcases hv : validatePriceAmount (getKey p "price.promotion_price.amount")
        "price.promotion_price.amount" cat with _ | e'
    · rw [hv] at he; cases he
    · rw [hv] at he
      rcases List.mem_singleton.mp he with rfl
      exact validatePriceAmount_types _ _ _ _ hv

/-- Boolean-pass records are `missing_field` or `invalid_value`. -/
theorem booleanFold_types (cat : String) :
    ∀ (fl : List String) (st : JsObj × List ProcessError),
      (∀ e ∈ st.2, e.type = ErrType.missing_field ∨ e.type = ErrType.invalid_value) →
      ∀ e ∈ (fl.foldl (booleanFieldStep cat) st).2,
        e.type = ErrType.missing_field ∨ e.type = ErrType.invalid_value := by
  intro fl
  induction fl with
  | nil => intro st h; exact h
  | cons f fs ih =>
    intro st h
    refine ih _ ?_
    rcases st with ⟨p, es⟩
    intro e he
    simp only [booleanFieldStep] at he
    rcases hv : validateBooleanField (getKey p f) f cat with _ | e'
    · rw [hv] at he; exact h e he
    · rw [hv] at he
      rcases List.mem_append.mp he with h1 | h2
      · exact h e h1
      · rcases List.mem_singleton.mp h2 with rfl
        exact validateBooleanField_types _ _ _ _ hv

/-- Additional-field records are `missing_field` or `invalid_value`. -/
theorem additionalFold_types (an : List String) (fields : List FieldDef) :
    ∀ (ks : List String) (st : JsObj × List ProcessError),
      (∀ e ∈ st.2, e.type = ErrType.missing_field ∨ e.type = ErrType.invalid_value) →
      ∀ e ∈ (ks.foldl (additionalFieldStep an fields) st).2,
        e.type = ErrType.missing_field ∨ e.type = ErrType.invalid_value := by
  intro ks
  induction ks with
  | nil => intro st h; exact h
  | cons k kk ih =>
    intro st h
    refine ih _ ?_
    rcases st with ⟨p, es⟩
    intro e he
    by_cases hmem : jsTrim k ∈ an
    case neg =>
      simp only [additionalFieldStep, if_neg hmem] at he
      exact h e he
    case pos =>
      simp only [additionalFieldStep, if_pos hmem] at he
      cases hf : fields.find? (fun fd => jsTrim fd.name = jsTrim k) with
      | none => rw [hf] at he; exact h e he
      | some fd =>
        rw [hf] at he
        dsimp only at he
        split_ifs at he
        all_goals try exact h e he
        all_goals
          (rcases List.mem_append.mp he with h1 | h2
           · exact h e h1
           · rcases List.mem_singleton.mp h2 with rfl
             first
               | exact Or.inl rfl
               | exact Or.inr rfl)

/-- A list of non-duplication records contains no duplication. -/
theorem hasDupErr_eq_false (l : List ProcessError)
    (h : ∀ e ∈ l, e.type ≠ ErrType.duplication) : hasDupErr l = false := by
  simp only [hasDupErr, List.any_eq_false, decide_eq_true_eq]
  exact h

/-- `hasDupErr` distributes over append. -/
theorem hasDupErr_append (a b : List ProcessError) :
    hasDupErr (a ++ b) = (hasDupErr a || hasDupErr b) := by
  simp [hasDupErr, List.any_append]

/-- The only duplication records a product can accumulate come from the
    duplicate check: a gated product is flagged for duplication exactly when
    its catalog number was already seen in the chunk or globally. -/
theorem processProduct_hasDup (sid : Dec) (sheetName : String) (an : List String)
    (fields : List FieldDef) (cs gs : List String) (p : JsObj) (c : String)
    (hc : catalogOf p = some c) :
    hasDupErr (processProduct sid sheetName an fields cs gs p).errors
      = (decide (c ∈ cs) || decide (c ∈ gs)) := by
  have hunrec : ∀ p' : JsObj, hasDupErr (unrecognizedErrs an sheetName c p') = false :=
    fun p' => hasDupErr_eq_false _ (fun e he => by
      rw [unrecognizedErrs_types an sheetName c p' e he]; decide)
  have hess : ∀ p' : JsObj, hasDupErr (essentialCheck sheetName c p').2 = false :=
    fun p' => hasDupErr_eq_false _ (fun e he => by
      rw [essentialFold_types sheetName c EssentialFields (p', [])
        (fun e' he' => absurd he' (List.not_mem_nil e')) e he]
      decide)
  have hsupp : ∀ p' : JsObj, hasDupErr (supplierCheck sid sheetName c p') = false :=
    fun p' => hasDupErr_eq_false _ (fun e he => by
      rw [supplierCheck_types sid sheetName c p' e he]; decide)
  have hcurr : ∀ p' : JsObj, hasDupErr (currencyCheck sheetName c p').2 = false :=
    fun p' => hasDupErr_eq_false _ (fun e he => by
      rw [currencyCheck_types sheetName c p' e he]; decide)
  have hbuy : ∀ p' : JsObj, hasDupErr (buyAmountCheck c p').2 = false :=
    fun p' => hasDupErr_eq_false _ (fun e he => by
      rcases buyAmountCheck_types c p' e he with ht | ht <;> (rw [ht]; decide))
  have hpromo : ∀ p' : JsObj, hasDupErr (promoAmountCheck c p').2 = false :=
    fun p' => hasDupErr_eq_false _ (fun e he => by
      rcases promoAmountCheck_types c p' e he with ht | ht <;> (rw [ht]; decide))
  have hbools : ∀ p' : JsObj, hasDupErr (booleanChecks c p').2 = false :=
    fun p' => hasDupErr_eq_false _ (fun e he => by
      rcases booleanFold_types c booleanFieldsList (p', [])
          (fun e' he' => absurd he' (List.not_mem_nil e')) e he with ht | ht <;>
        (rw [ht]; decide))
  have haddl : ∀ p' : JsObj, hasDupErr (validateAdditionalFields p' an fields).2 = false :=
    fun p' => hasDupErr_eq_false _ (fun e he => by
      rcases additionalFold_types an fields (p'.map Prod.fst) (p', [])
          (fun e' he' => absurd he' (List.not_mem_nil e')) e he with ht | ht <;>
        (rw [ht]; decide))
  simp only [processProduct, hc, hasDupErr_append, hunrec, hess, hsupp, hcurr, hbuy,
    hpromo, hbools, haddl, Bool.or_false]
  exact dupCheck_hasDup c sheetName cs gs

/-- A product with any accumulated error is excluded from the valid output. -/
theorem processProduct_valid_none (sid : Dec) (sheetName : String) (an : List String)
    (fields : List FieldDef) (cs gs : List String) (p : JsObj)
    (h : (processProduct sid sheetName an fields cs gs p).errors ≠ []) :
    (processProduct sid sheetName an fields cs gs p).valid = none := by
  rcases hc : catalogOf p with _ | c
  · simp [processProduct, hc]
  · simp only [processProduct, hc] at h ⊢
    rw [if_neg (by exact h)]

/-- A nonempty duplication of errors is nonempty. -/
theorem ne_nil_of_hasDup (l : List ProcessError) (h : hasDupErr l = true) : l ≠ [] := by
  intro hl
  rw [hl] at h
  cases h

/-- The gated product's duplicate-set updates. -/
theorem processProduct_sets (sid : Dec) (sheetName : String) (an : List String)
    (fields : List FieldDef) (cs gs : List String) (p : JsObj) (c : String)
    (hc : catalogOf p = some c) :
    (processProduct sid sheetName an fields cs gs p).chunkSet
        = (if c ∈ cs then cs else cs ++ [c])
      ∧ (processProduct sid sheetName an fields cs gs p).globalSet
        = (if c ∈ cs then gs else if c ∈ gs then gs else gs ++ [c]) := by
  simp only [processProduct, hc]
  exact ⟨(dupCheck_sets c sheetName cs gs).1, (dupCheck_sets c sheetName cs gs).2⟩

/-- An ungated product touches neither set. -/
theorem processProduct_sets_none (sid : Dec) (sheetName : String) (an : List String)
    (fields : List FieldDef) (cs gs : List String) (p : JsObj)
    (hc : catalogOf p = none) :
    (processProduct sid sheetName an fields cs gs p).chunkSet = cs
      ∧ (processProduct sid sheetName an fields cs gs p).globalSet = gs := by
  simp [processProduct, hc]

/-- The chunk-local set after a batch collects exactly the gated catalog
    numbers of the batch. -/
theorem processChunkGo_chunkSet_mem (sid : Dec) (sheetName : String) (an : List String)
    (fields : List FieldDef) :
    ∀ (ps : List JsObj) (cs gs : List String) (x : String),
      x ∈ (processChunkGo sid sheetName an fields cs gs ps).chunkSet
        ↔ x ∈ cs ∨ x ∈ catsOf ps := by
  intro ps
  induction ps with
  | nil => intro cs gs x; simp [processChunkGo, catsOf]
  | cons p ps ih =>
    intro cs gs x
    rcases hc : catalogOf p with _ | c
    · have hsets := processProduct_sets_none sid sheetName an fields cs gs p hc
      simp only [processChunkGo, hsets.1, hsets.2, ih]
      simp [catsOf, List.filterMap_cons, hc]
    · have hsets := processProduct_sets sid sheetName an fields cs gs p c hc
      simp only [processChunkGo, hsets.1, hsets.2, ih]
      have hcats : catsOf (p :: ps) = c :: catsOf ps := by
        simp [catsOf, List.filterMap_cons, hc]
      rw [hcats]
      by_cases h1 : c ∈ cs
      · by_cases hx : x = c
        · subst hx; simp [h1]
        · simp [h1, hx]
      · by_cases hx : x = c
        · subst hx; simp [h1]
        · simp [h1, hx, List.mem_append]

/-- The global set after a batch gains exactly the batch's gated catalog
    numbers that were not already claimed by the incoming chunk-local set. -/
theorem processChunkGo_globalSet_mem (sid : Dec) (sheetName : String) (an : List String)
    (fields : List FieldDef) :
    ∀ (ps : List JsObj) (cs gs : List String) (x : String),
      x ∈ (processChunkGo sid sheetName an fields cs gs ps).globalSet
        ↔ x ∈ gs ∨ (x ∈ catsOf ps ∧ x ∉ cs) := by
  intro ps
  induction ps with
  | nil => intro cs gs x; simp [processChunkGo, catsOf]
  | cons p ps ih =>
    intro cs gs x
    rcases hc : catalogOf p with _ | c
    · have hsets := processProduct_sets_none sid sheetName an fields cs gs p hc
      simp only [processChunkGo, hsets.1, hsets.2, ih]
      simp [catsOf, List.filterMap_cons, hc]
    · have hsets := processProduct_sets sid sheetName an fields cs gs p c hc
      simp only [processChunkGo, hsets.1, hsets.2, ih]
      have hcats : catsOf (p :: ps) = c :: catsOf ps := by
        simp [catsOf, List.filterMap_cons, hc]
      rw [hcats]
      by_cases h1 : c ∈ cs
      · by_cases hx : x = c
        · subst hx; simp [h1]
        · simp [h1, hx]
      · by_cases h2 : c ∈ gs
        · by_cases hx : x = c
          · subst hx; simp [h1, h2]
          · simp [h1, h2, hx, List.mem_append]
        · by_cases hx : x = c
          · subst hx; simp [h1, h2, List.mem_append]
          · simp [h1, h2, hx, List.mem_append]

/-- The batch loop never removes a global-set entry. -/
theorem processChunkGo_globalSet_nodup (sid : Dec) (sheetName : String)
    (an : List String) (fields : List FieldDef) :
    ∀ (ps : List JsObj) (cs gs : List String), gs.Nodup →
      (processChunkGo sid sheetName an fields cs gs ps).globalSet.Nodup := by
  intro ps
  induction ps with
  | nil => intro cs gs h; exact h
  | cons p ps ih =>
    intro cs gs h
    rcases hc : catalogOf p with _ | c
    · have hsets := processProduct_sets_none sid sheetName an fields cs gs p hc
      simp only [processChunkGo, hsets.1, hsets.2]
      exact ih _ _ h
    · have hsets := processProduct_sets sid sheetName an fields cs gs p c hc
      simp only [processChunkGo, hsets.1, hsets.2]
      apply ih
      by_cases h1 : c ∈ cs
      · simpa [h1] using h
      · by_cases h2 : c ∈ gs
        · simpa [h1, h2] using h
        · rw [if_neg h1, if_neg h2]
          simp [List.nodup_append, h, h2]

/-- The run-level global set collects exactly the gated catalog numbers of all
    chunks, on top of its initial contents. -/
theorem runChunksGo_globalSet_mem (sid : Dec) (sheetName : String) (an : List String)
    (fields : List FieldDef) :
    ∀ (chunks : List (List JsObj)) (gs : List String) (x : String),
      x ∈ (runChunksGo sid sheetName an fields gs chunks).globalSet
        ↔ x ∈ gs ∨ x ∈ catsOf chunks.flatten := by
  intro chunks
  induction chunks with
  | nil => intro gs x; simp [runChunksGo, catsOf]
  | cons ch chs ih =>
    intro gs x
    simp only [runChunksGo, processProductChunk, ih,
      processChunkGo_globalSet_mem sid sheetName an fields ch [] gs x]
    simp only [List.flatten_cons, catsOf, List.filterMap_append, List.mem_append,
      List.not_mem_nil, not_false_iff, and_true]
    tauto

/-- The run-level global set stays duplicate-free. -/
theorem runChunksGo_globalSet_nodup (sid : Dec) (sheetName : String) (an : List String)
    (fields : List FieldDef) :
    ∀ (chunks : List (List JsObj)) (gs : List String), gs.Nodup →
      (runChunksGo sid sheetName an fields gs chunks).globalSet.Nodup := by
  intro chunks
  induction chunks with
  | nil => intro gs h; exact h
  | cons ch chs ih =>
    intro gs h
    exact ih _ (processChunkGo_globalSet_nodup sid sheetName an fields ch [] gs h)

/-- C1: for a gated product sitting after the chunks `before` and the chunk
    prefix `pre` of a run that started with global set `gs0`: a first
    occurrence of its catalog number is never flagged for duplication; every
    later occurrence (same or different chunk) is flagged for duplication and
    excluded from the valid output; the global set only ever grows along the
    run (entries are never removed); and it stays duplicate-free, so each
    catalog number is recorded at most once. -/
theorem C1_duplicate_tracking (sid : Dec) (sheetName : String) (an : List String)
    (fields : List FieldDef) (gs0 : List String) (before : List (List JsObj))
    (pre : List JsObj) (p : JsObj) (c : String) (hc : catalogOf p = some c) :
    ((c ∉ gs0 ∧ c ∉ catsOf before.flatten ∧ c ∉ catsOf pre) →
        hasDupErr (productAt sid sheetName an fields gs0 before pre p).errors = false)
    ∧ ((c ∈ gs0 ∨ c ∈ catsOf before.flatten ∨ c ∈ catsOf pre) →
        hasDupErr (productAt sid sheetName an fields gs0 before pre p).errors = true
          ∧ (productAt sid sheetName an fields gs0 before pre p).valid = none)
    ∧ gs0 ⊆ (runChunksGo sid sheetName an fields gs0 before).globalSet
    ∧ (runChunksGo sid sheetName an fields gs0 before).globalSet
        ⊆ (midState sid sheetName an fields gs0 before pre).globalSet
    ∧ (midState sid sheetName an fields gs0 before pre).globalSet
        ⊆ (productAt sid sheetName an fields gs0 before pre p).globalSet
    ∧ (gs0.Nodup → (productAt sid sheetName an fields gs0 before pre p).globalSet.Nodup) := by
  have hcs : ∀ x, x ∈ (midState sid sheetName an fields gs0 before pre).chunkSet
      ↔ x ∈ catsOf pre := by
    intro x
    unfold midState
    rw [processChunkGo_chunkSet_mem]
    simp
  have hgs : ∀ x, x ∈ (midState sid sheetName an fields gs0 before pre).globalSet
      ↔ x ∈ gs0 ∨ x ∈ catsOf before.flatten ∨ x ∈ catsOf pre := by
    intro x
    unfold midState
    rw [processChunkGo_globalSet_mem, runChunksGo_globalSet_mem]
    simp [or_assoc]
  have hdup : hasDupErr (productAt sid sheetName an fields gs0 before pre p).errors
      = (decide (c ∈ (midState sid sheetName an fields gs0 before pre).chunkSet)
          || decide (c ∈ (midState sid sheetName an fields gs0 before pre).globalSet)) :=
    processProduct_hasDup sid sheetName an fields _ _ p c hc
  have hsets := processProduct_sets sid sheetName an fields
    (midState sid sheetName an fields gs0 before pre).chunkSet
    (midState sid sheetName an fields gs0 before pre).globalSet p c hc
  refine ⟨?_, ?_, ?_, ?_, ?_, ?_⟩
  · rintro ⟨h1, h2, h3⟩
    rw [hdup]
    have hc1 : c ∉ (midState sid sheetName an fields gs0 before pre).chunkSet :=
      fun hmem => h3 ((hcs c).mp hmem)
    have hc2 : c ∉ (midState sid sheetName an fields gs0 before pre).globalSet :=
      fun hmem => by rcases (hgs c).mp hmem with h | h | h
                     · exact h1 h
                     · exact h2 h
                     · exact h3 h
    simp [hc1, hc2]
  · intro h
    have hc2 : c ∈ (midState sid sheetName an fields gs0 before pre).globalSet :=
      (hgs c).mpr (by tauto)
    have hd : hasDupErr (productAt sid sheetName an fields gs0 before pre p).errors
        = true := by
      rw [hdup]
      simp [hc2]
    exact ⟨hd, processProduct_valid_none sid sheetName an fields _ _ p
      (ne_nil_of_hasDup _ hd)⟩
  · intro x hx
    exact (runChunksGo_globalSet_mem sid sheetName an fields before gs0 x).mpr (Or.inl hx)
  · intro x hx
    refine (hgs x).mpr ?_
    rcases (runChunksGo_globalSet_mem sid sheetName an fields before gs0 x).mp hx with h | h
    · exact Or.inl h
    · exact Or.inr (Or.inl h)
  · intro x hx
    rw [show (productAt sid sheetName an fields gs0 before pre p).globalSet
          = _ from hsets.2]
    split_ifs <;> first | exact hx | exact List.mem_append_left _ hx
  · intro hnd
    have hmid : (midState sid sheetName an fields gs0 before pre).globalSet.Nodup := by
      unfold midState
      exact processChunkGo_globalSet_nodup sid sheetName an fields pre [] _
        (runChunksGo_globalSet_nodup sid sheetName an fields before gs0 hnd)
    rw [show (productAt sid sheetName an fields gs0 before pre p).globalSet
          = _ from hsets.2]
    split_ifs with h1 h2
    · exact hmid
    · exact hmid
    · simp [List.nodup_append, hmid, h2]

theorem C1_duplicate_tracking_witness :
    catalogOf [("catalog_number", JsVal.str "A1")] = some "A1"
      ∧ hasDupErr (productAt ⟨5, 0⟩ "S" [] [] [] [[[("catalog_number", JsVal.str "A1")]]]
          [] [("catalog_number", JsVal.str "A1")]).errors = true
      ∧ (productAt ⟨5, 0⟩ "S" [] [] [] [[[("catalog_number", JsVal.str "A1")]]]
          [] [("catalog_number", JsVal.str "A1")]).valid = none :=
  ⟨rfl,
   (C1_duplicate_tracking ⟨5, 0⟩ "S" [] [] [] [[[("catalog_number", JsVal.str "A1")]]]
       [] [("catalog_number", JsVal.str "A1")] "A1" rfl).2.1
     (Or.inr (Or.inl (by decide))) |>.1,
   (C1_duplicate_tracking ⟨5, 0⟩ "S" [] [] [] [[[("catalog_number", JsVal.str "A1")]]]
       [] [("catalog_number", JsVal.str "A1")] "A1" rfl).2.1
     (Or.inr (Or.inl (by decide))) |>.2⟩

/-- Data-loop messages are the periodic progress frames only. -/
theorem dataLoop_msgs_code (hs : List (Nat × String)) :
    ∀ (rows : List (List CellIn)) (pr : Nat), ∀ m ∈ (dataLoop hs pr rows).1,
      m.code = none := by
  intro rows
  induction rows with
  | nil => intro pr m hm; cases hm
  | cons row rest ih =>
    intro pr m hm
    by_cases hrow : row = []
    · rw [show dataLoop hs pr (row :: rest) = dataLoop hs pr rest by
        simp [dataLoop, hrow]] at hm
      exact ih pr m hm
    · simp only [dataLoop, if_neg hrow] at hm
      by_cases hpd : rowToProduct hs row = []
      · rw [if_pos hpd] at hm
        exact ih pr m hm
      · rw [if_neg hpd] at hm
        simp only at hm
        rcases List.mem_append.mp hm with h1 | h2
        · by_cases hmod : (pr + 1) % CHUNK_SIZE = 0
          · rw [if_pos hmod] at h1
            rcases List.mem_singleton.mp h1 with rfl
            rfl
          · rw [if_neg hmod] at h1
            cases h1
        · exact ih (pr + 1) m h2

/-- C8 (counterexample): a sheet whose first emitted row is empty but whose
    second row carries data is not given headers from that non-empty row; it
    is skipped with the no-headers warning and contributes zero products. -/
theorem C8_counterexample :
    emptyHeaderSheet.rows.any (fun r => decide (r ≠ [])) = true
      ∧ (processSheet 0 emptyHeaderSheet).msgs.map (fun m => m.code)
          = [some "NO_SHEET_HEADERS"]
      ∧ (processSheet 0 emptyHeaderSheet).products = [] := by
  refine ⟨by decide, by decide, by decide⟩

/-- C8 (amended): headers are taken from the first *emitted* row of each sheet
    (blank or `null` header cells receive the positional `ColumnN`
    placeholder); a nonempty first emitted row never produces the no-headers
    warning and the sheet's products come from the remaining rows under those
    headers; a sheet whose first emitted row has no cells yields exactly one
    warning-severity `file_error` and zero products, even when later rows
    contain data; and a sheet that emits no rows at all yields neither
    messages nor products. -/
theorem C8_headers_amended :
    (∀ (pr : Nat) (s : SheetIn) (r1 : List CellIn) (rest : List (List CellIn)),
        s.rows = r1 :: rest → r1 ≠ [] →
        (processSheet pr s).products = (dataLoop (headersOf r1) pr rest).2.1
          ∧ (∀ m ∈ (processSheet pr s).msgs, m.code ≠ some "NO_SHEET_HEADERS")
          ∧ (processSheet pr s).errs = [])
    ∧ (∀ (col : Nat) (v : JsVal), v = JsVal.null ∨ jsTrim (jsToString v) = "" →
        headerName col v = "Column" ++ toString col)
    ∧ (∀ (pr : Nat) (s : SheetIn) (rest : List (List CellIn)),
        s.rows = [] :: rest →
        (processSheet pr s).msgs = [noHeadersMsg s.name]
          ∧ (processSheet pr s).errs = [noHeadersMsg s.name]
          ∧ (noHeadersMsg s.name).severity = Severity.warning
          ∧ (noHeadersMsg s.name).type = ErrType.file_error
          ∧ (processSheet pr s).products = [])
    ∧ (∀ (pr : Nat) (s : SheetIn), s.rows = [] →
        (processSheet pr s).msgs = [] ∧ (processSheet pr s).products = []) := by
  refine ⟨?_, ?_, ?_, ?_⟩
  · intro pr s r1 rest hrows hne
    rcases s with ⟨nm, rows⟩
    simp only at hrows
    subst hrows
    simp only [processSheet, if_neg hne]
    refine ⟨trivial, ?_, trivial⟩
    intro m hm
    rw [dataLoop_msgs_code (headersOf r1) rest pr m hm]
    intro hcontra
    cases hcontra
  · intro col v hv
    rcases hv with rfl | hv
    · rfl
    · cases v <;> simp [headerName, hv]
  · intro pr s rest hrows
    rcases s with ⟨nm, rows⟩
    simp only at hrows
    subst hrows
    refine ⟨by simp [processSheet], by simp [processSheet], rfl, rfl,
      by simp [processSheet]⟩
  · intro pr s hrows
    rcases s with ⟨nm, rows⟩
    simp only at hrows
    subst hrows
    simp [processSheet]

theorem C8_headers_amended_witness :
    (processSheet 0 ⟨"S", [[⟨1, JsVal.str "catalog_number"⟩, ⟨2, JsVal.str " "⟩],
          [⟨1, JsVal.str "A1"⟩, ⟨2, JsVal.str "x"⟩]]⟩).products
        = [[("catalog_number", JsVal.str "A1"), ("Column2", JsVal.str "x")]]
      ∧ headerName 2 (JsVal.str " ") = "Column2"
      ∧ (processSheet 7 emptyHeaderSheet).msgs = [noHeadersMsg "S"]
      ∧ (processSheet 7 emptyHeaderSheet).products = [] :=
  ⟨by
    rw [(C8_headers_amended.1 0 ⟨"S", [[⟨1, JsVal.str "catalog_number"⟩, ⟨2, JsVal.str " "⟩],
          [⟨1, JsVal.str "A1"⟩, ⟨2, JsVal.str "x"⟩]]⟩
        [⟨1, JsVal.str "catalog_number"⟩, ⟨2, JsVal.str " "⟩]
        [[⟨1, JsVal.str "A1"⟩, ⟨2, JsVal.str "x"⟩]] rfl (by decide)).1]
    decide,
   C8_headers_amended.2.1 2 (JsVal.str " ") (Or.inr (by decide)),
   (C8_headers_amended.2.2.1 7 emptyHeaderSheet [[⟨1, JsVal.str "hello"⟩]] rfl).1,
   (C8_headers_amended.2.2.1 7 emptyHeaderSheet [[⟨1, JsVal.str "hello"⟩]] rfl).2.2.2.2⟩

/-- C9 (counterexample): the zero-products run produces a nonempty stream
    containing no `summary_report` and no fatal error, and its final frames
    are not `summary_report` followed by `success` — the stream ends on the
    cleanup notice after the no-products `success`. -/
theorem C9_counterexample :
    strictEndsOK (runMsgs constHash noProductsEnv) = false
      ∧ (runMsgs constHash noProductsEnv).any
          (fun m => decide (m.type = ErrType.summary_report)) = false
      ∧ (runMsgs constHash noProductsEnv).any isFatalMsg = false
      ∧ runMsgs constHash noProductsEnv ≠ [] := by
  refine ⟨by decide, by decide, by decide, by decide⟩

/-- Closing a stream whose last frames are `a`, `b` and a cleanup frame `c`
    satisfies the amended terminal-shape property whenever `b` over `a` forms
    a good tail. -/
theorem endsOK_concat3 (xs : List ProcessError) (a b c : ProcessError)
    (hc : isCleanupMsg c = true) (h : goodTail [b, a] = true) :
    endsOK (xs ++ a :: b :: [c]) = true := by
  have hrev : (xs ++ a :: b :: [c]).reverse = c :: b :: a :: xs.reverse := by simp
  unfold endsOK
  rw [hrev]
  show (if isCleanupMsg c = true then goodTail (b :: a :: xs.reverse)
        else goodTail (c :: b :: a :: xs.reverse)) = true
  rw [if_pos hc]
  exact h

/-- A two-frame stream ending in a non-cleanup fatal frame is terminal. -/
theorem endsOK_pair (a b : ProcessError) (hb : isCleanupMsg b = false)
    (hf : isFatalMsg b = true) : endsOK [a, b] = true := by
  unfold endsOK
  show (match [a, b].reverse with
        | [] => false
        | m :: rest => if isCleanupMsg m then goodTail rest else goodTail (m :: rest)) = true
  rw [show [a, b].reverse = [b, a] by simp]
  show (if isCleanupMsg b = true then goodTail [a] else goodTail [b, a]) = true
  rw [hb]
  simp only [Bool.false_eq_true, if_false, goodTail, hf, Bool.true_or]

/-- C9 (amended): every run's stream satisfies the terminal-shape property:
    after discarding the at most one trailing temp-file cleanup frame, the
    stream ends either in a fatal run-level error, or in a `success` frame
    immediately preceded by the `summary_report`, or in the no-products
    `success` preceded by its notice; the stream never just ends. -/
theorem C9_terminal_messages_amended (hashFn : List SheetMeta → List JsObj → String)
    (env : RunEnv) : endsOK (runMsgs hashFn env) = true := by
  unfold runMsgs
  by_cases h1 : paramsMissing env
  · rw [if_pos h1]; decide
  · rw [if_neg h1]
    by_cases h2 : env.fileExists = false
    · rw [if_pos h2]
      exact endsOK_pair _ _ rfl rfl
    · rw [if_neg h2]
      cases hd : env.fieldsDoc with
      | none =>
        dsimp only
        by_cases hcf : env.cleanupFails
        · rw [show cleanupMsgs env = [cleanupFailedMsg env.cleanupFailMessage] from by
            unfold cleanupMsgs; rw [if_pos hcf]]
          exact endsOK_concat3 [] connectedMsg metadataNotFoundMsg _ rfl rfl
        · rw [show cleanupMsgs env = [cleanupOkMsg] from by
            unfold cleanupMsgs; rw [if_neg hcf]]
          exact endsOK_concat3 [] connectedMsg metadataNotFoundMsg cleanupOkMsg rfl rfl
      | some fields =>
        dsimp only
        by_cases h3 : env.excelOpenFails
        · rw [if_pos h3]
          by_cases hcf : env.cleanupFails
          · rw [show cleanupMsgs env = [cleanupFailedMsg env.cleanupFailMessage] from by
              unfold cleanupMsgs; rw [if_pos hcf]]
            exact endsOK_concat3 [connectedMsg] startingMsg
              (excelOpenErrMsg env.excelOpenMessage) _ rfl rfl
          · rw [show cleanupMsgs env = [cleanupOkMsg] from by
              unfold cleanupMsgs; rw [if_neg hcf]]
            exact endsOK_concat3 [connectedMsg] startingMsg
              (excelOpenErrMsg env.excelOpenMessage) cleanupOkMsg rfl rfl
        · rw [if_neg h3]
          by_cases h4 : productsOf env = []
          · rw [if_pos h4]
            by_cases hcf : env.cleanupFails
            · rw [show cleanupMsgs env = [cleanupFailedMsg env.cleanupFailMessage] from by
                unfold cleanupMsgs; rw [if_pos hcf]]
              simpa only [List.append_assoc, List.cons_append, List.nil_append] using
                endsOK_concat3 ([connectedMsg, startingMsg] ++ (sheetsOut env).msgs)
                  noProductsMsg noProductsDoneMsg
                  (cleanupFailedMsg env.cleanupFailMessage) rfl rfl
            · rw [show cleanupMsgs env = [cleanupOkMsg] from by
                unfold cleanupMsgs; rw [if_neg hcf]]
              simpa only [List.append_assoc, List.cons_append, List.nil_append] using
                endsOK_concat3 ([connectedMsg, startingMsg] ++ (sheetsOut env).msgs)
                  noProductsMsg noProductsDoneMsg cleanupOkMsg rfl rfl
          · rw [if_neg h4]
            have hg : goodTail [processCompletedMsg,
                mkSummary (productsOf env).length (veOf env fields).length
                  (deOf env fields).length (weOf env fields).length] = true := rfl
            by_cases hcf : env.cleanupFails
            · rw [show cleanupMsgs env = [cleanupFailedMsg env.cleanupFailMessage] from by
                unfold cleanupMsgs; rw [if_pos hcf]]
              simpa only [List.append_assoc, List.cons_append, List.nil_append] using
                endsOK_concat3
                  ([connectedMsg, startingMsg] ++ (sheetsOut env).msgs
                    ++ [finishedReadingMsg (productsOf env).length,
                        hashInfoMsg (hashFn (metaOf env) (productsOf env))]
                    ++ chunkMsgsOf env ++ batchMsgsOf env fields ++ dupMsgsOf env fields
                    ++ warnMsgsOf env fields ++ bpMsgsOf env fields)
                  (mkSummary (productsOf env).length (veOf env fields).length
                    (deOf env fields).length (weOf env fields).length)
                  processCompletedMsg (cleanupFailedMsg env.cleanupFailMessage) rfl hg
            · rw [show cleanupMsgs env = [cleanupOkMsg] from by
                unfold cleanupMsgs; rw [if_neg hcf]]
              simpa only [List.append_assoc, List.cons_append, List.nil_append] using
                endsOK_concat3
                  ([connectedMsg, startingMsg] ++ (sheetsOut env).msgs
                    ++ [finishedReadingMsg (productsOf env).length,
                        hashInfoMsg (hashFn (metaOf env) (productsOf env))]
                    ++ chunkMsgsOf env ++ batchMsgsOf env fields ++ dupMsgsOf env fields
                    ++ warnMsgsOf env fields ++ bpMsgsOf env fields)
                  (mkSummary (productsOf env).length (veOf env fields).length
                    (deOf env fields).length (weOf env fields).length)
                  processCompletedMsg cleanupOkMsg rfl hg

/-- C10 (counterexample): in this run one product (`A1`) accumulates two
    error records, yet the summary's `validProducts` (0) coincides with the
    number of products that actually passed validation (0), because a second
    product is excluded by a warning alone and contributes no counted
    record — refuting the claimed inequality for every such run. -/
theorem C10_counterexample :
    ((veOf compSummaryEnv []).filter
          (fun e => decide (e.catalogNumber = some "A1"))).length = 2
      ∧ (deOf compSummaryEnv []).length = 0
      ∧ (productsOf compSummaryEnv).length = 2
      ∧ (runMsgs constHash compSummaryEnv).filterMap (fun m => m.validProducts)
          = [(0 : Int)]
      ∧ validCountOf compSummaryEnv [] = 0 := by
  refine ⟨by decide, by decide, by decide, by decide, by decide⟩

/-- C10 (amended): the final summary's `validProducts` equals `totalProducts`
    minus the number of error-severity validation records minus the number of
    duplication records — it counts error records, not invalid products — so
    it can differ from the number of products that actually passed validation
    and can even be negative (as in the concrete run below, where one product
    accumulates three records and `validProducts` is `-2` while zero products
    pass); but when the surplus records are offset by warning-only exclusions
    the two counts can coincide, so the divergence is possible, not
    universal. -/
theorem C10_summary_formula_amended :
    (∀ (hashFn : List SheetMeta → List JsObj → String) (env : RunEnv)
        (fields : List FieldDef),
        env.fieldsDoc = some fields → paramsMissing env = false →
        env.fileExists = true → env.excelOpenFails = false → productsOf env ≠ [] →
        mkSummary (productsOf env).length (veOf env fields).length
            (deOf env fields).length (weOf env fields).length ∈ runMsgs hashFn env)
    ∧ (∀ T V D W : Nat, (mkSummary T V D W).validProducts
        = some ((T : Int) - (V : Int) - (D : Int)))
    ∧ (runMsgs constHash negSummaryEnv).filterMap (fun m => m.validProducts)
        = [(-2 : Int)]
    ∧ validCountOf negSummaryEnv [] = 0 := by
  refine ⟨?_, fun T V D W => rfl, by decide, by decide⟩
  intro hashFn env fields hfd hpm hfe hex hne
  unfold runMsgs
  rw [if_neg (by rw [hpm]; exact fun hcontra => by cases hcontra), hfd,
    if_neg (by rw [hfe]; exact fun hcontra => by cases hcontra)]
  dsimp only
  rw [if_neg (by rw [hex]; exact fun hcontra => by cases hcontra), if_neg hne]
  simp only [List.mem_append, List.mem_cons]
  tauto

theorem C10_summary_formula_amended_witness :
    mkSummary (productsOf cleanEnv).length (veOf cleanEnv []).length
        (deOf cleanEnv []).length (weOf cleanEnv []).length
        ∈ runMsgs constHash cleanEnv
      ∧ (mkSummary 3 1 1 0).validProducts = some (1 : Int) :=
  ⟨C10_summary_formula_amended.1 constHash cleanEnv [] rfl (by decide) rfl rfl (by decide),
   C10_summary_formula_amended.2.1 3 1 1 0⟩

/-- C4 (counterexample): a re-submission whose content fingerprint is already
    in the stored idempotency record is still fully re-validated — the stream
    contains a validation-errors batch for the file's invalid row — and the
    stored record is left unchanged; nothing short-circuits the run. -/
theorem C4_counterexample :
    resubmitEnv.blueprintFiles
        = some [constHash (metaOf resubmitEnv) (productsOf resubmitEnv)]
      ∧ (runMsgs constHash resubmitEnv).any
          (fun m => decide (m.code = some "VALIDATION_BATCH")) = true
      ∧ runBlueprintOut constHash resubmitEnv = resubmitEnv.blueprintFiles := by
  refine ⟨by decide, by decide, by decide⟩

/-- C4 (amended): on a run with zero error-severity validation records and
    zero duplication records whose write succeeds, the fingerprint is added
    to the persisted record by a set-union write (create-if-absent,
    append-if-present, never an overwrite); but the stored record is never
    consulted before validating — the outbound stream is identical whatever
    the stored fingerprints are, so identical re-submissions are re-validated
    in full. -/
theorem C4_fingerprint_union_amended :
    (∀ (hashFn : List SheetMeta → List JsObj → String) (env : RunEnv)
        (fields : List FieldDef),
        env.fieldsDoc = some fields → paramsMissing env = false →
        env.fileExists = true → env.excelOpenFails = false → productsOf env ≠ [] →
        veOf env fields = [] → deOf env fields = [] → env.blueprintSaveFails = false →
        runBlueprintOut hashFn env
          = addToSet env.blueprintFiles (hashFn (metaOf env) (productsOf env)))
    ∧ (∀ (files : List String) (h : String),
        (h ∈ files → addToSet (some files) h = some files)
          ∧ (h ∉ files → addToSet (some files) h = some (files ++ [h]))
          ∧ addToSet none h = some [h])
    ∧ (∀ (hashFn : List SheetMeta → List JsObj → String) (env : RunEnv)
        (f : Option (List String)),
        runMsgs hashFn (withBP env f) = runMsgs hashFn env) := by
  refine ⟨?_, ?_, ?_⟩
  · intro hashFn env fields hfd hpm hfe hex hne hve hde hbs
    unfold runBlueprintOut
    rw [if_neg (by rw [hpm]; exact fun hcontra => by cases hcontra), hfd,
      if_neg (by rw [hfe]; exact fun hcontra => by cases hcontra)]
    dsimp only
    rw [if_neg (by rw [hex]; exact fun hcontra => by cases hcontra), if_neg hne,
      if_pos ⟨hve, hde⟩, if_neg (by rw [hbs]; exact fun hcontra => by cases hcontra)]
  · intro files h
    refine ⟨fun hm => by simp [addToSet, hm], fun hm => by simp [addToSet, hm], rfl⟩
  · intro hashFn env f
    rfl

theorem C4_fingerprint_union_amended_witness :
    runBlueprintOut constHash cleanEnv
        = addToSet cleanEnv.blueprintFiles
            (constHash (metaOf cleanEnv) (productsOf cleanEnv))
      ∧ addToSet (some ["X"]) "H" = some ["X", "H"]
      ∧ runMsgs constHash (withBP cleanEnv (some ["H"])) = runMsgs constHash cleanEnv :=
  ⟨C4_fingerprint_union_amended.1 constHash cleanEnv [] rfl (by decide) rfl rfl
      (by decide) (by decide) (by decide) rfl,
   (C4_fingerprint_union_amended.2.1 ["X"] "H").2.1 (by decide),
   C4_fingerprint_union_amended.2.2 constHash cleanEnv (some ["H"])⟩
